import Mathlib

/-!
Verification of the lumeo-api-client pipeline definition graph model.

The development shallowly embeds the pipeline codec of the repository:
  * a small JSON value type together with an executable printer and parser
    (standing in for `serde_json`), with a proved print/parse round trip;
  * the scalar micro-codecs (`Crop`, `Resolution`, enums with legacy aliases);
  * the pad / node / node-properties data model;
  * the validating `Pipeline` graph codec (`pipeline.rs`);
  * the flexible deployment-definition decoder (`deployments.rs`).

Machine integers (`usize`, `u32`) are modelled as `Nat`; `f64` fields
(`rotate`, `rotation`) are modelled at integer precision since no verified
property depends on fractional angles.  `Url` and `Uuid` are modelled as
plain strings (their internal validation is out of scope).
-/

namespace Lumeo

/-! ## JSON values (model of `serde_json::Value`) -/

/-- JSON value tree.  Numbers are modelled as integers: the pipeline wire
format only uses integral numbers in every field the verification touches. -/
inductive Json where
  | null
  | bool (b : Bool)
  | num (n : Int)
  | str (s : String)
  | arr (elems : List Json)
  | obj (fields : List (String × Json))
deriving Repr, BEq

/-- The `{` character (written via its code point). -/
def lbrace : Char := '\x7b'

/-- The `}` character (written via its code point). -/
def rbrace : Char := '\x7d'

/-- Decimal digit character for a value below ten. -/
def digitChar (n : Nat) : Char := Char.ofNat (48 + n)

/-- Decimal digits of a natural number, most significant first. -/
def natDigits (n : Nat) : List Char :=
  if _h : n < 10 then [digitChar n]
  else natDigits (n / 10) ++ [digitChar (n % 10)]
decreasing_by exact Nat.div_lt_self (by omega) (by omega)

/-- Numeric value of a digit character. -/
def digitVal (c : Char) : Nat := c.toNat - 48

/-- Value of a list of decimal digit characters. -/
def digitsVal (ds : List Char) : Nat := ds.foldl (fun a c => 10 * a + digitVal c) 0

/-- Characters of the decimal rendering of an integer. -/
def intChars (n : Int) : List Char :=
  if n < 0 then '-' :: natDigits (-n).toNat else natDigits n.toNat

/-- JSON string escaping: quotes and backslashes get a backslash. -/
def escapeChars : List Char → List Char
  | [] => []
  | c :: cs => (if c = '"' ∨ c = '\\' then ['\\', c] else [c]) ++ escapeChars cs

mutual

/-- Characters of the canonical (whitespace-free) JSON rendering of a value. -/
def Json.encodeChars : Json → List Char
  | .null => 'n' :: 'u' :: 'l' :: 'l' :: []
  | .bool true => 't' :: 'r' :: 'u' :: 'e' :: []
  | .bool false => 'f' :: 'a' :: 'l' :: 's' :: 'e' :: []
  | .num n => intChars n
  | .str s => '"' :: (escapeChars s.data ++ ['"'])
  | .arr es => '[' :: Json.encodeArrChars es
  | .obj fs => lbrace :: Json.encodeObjChars fs

/-- Characters of an encoded array after the opening bracket. -/
def Json.encodeArrChars : List Json → List Char
  | [] => [']']
  | e :: es =>
    Json.encodeChars e ++ (if es.isEmpty then [']'] else ',' :: Json.encodeArrChars es)

/-- Characters of an encoded object after the opening brace. -/
def Json.encodeObjChars : List (String × Json) → List Char
  | [] => [rbrace]
  | (k, v) :: fs =>
    '"' :: (escapeChars k.data ++ ['"', ':'] ++ Json.encodeChars v
      ++ (if fs.isEmpty then [rbrace] else ',' :: Json.encodeObjChars fs))

end

/-- Canonical JSON rendering of a value (model of `serde_json::to_string`). -/
def Json.encode (j : Json) : String := ⟨j.encodeChars⟩

/-! ## JSON parser (model of `serde_json::from_str`)

A fuel-indexed recursive-descent parser over the whitespace-free JSON
grammar produced by `Json.encode`; machine-generated documents (the only
producers in the modelled protocol) carry no interstitial whitespace. -/

/-- Consume an expected literal run of characters. -/
def expectChars : List Char → List Char → Option (List Char)
  | [], cs => some cs
  | e :: es, c :: cs => if c = e then expectChars es cs else none
  | _ :: _, [] => none

/-- Parse the body of a JSON string after the opening quote, undoing
backslash escapes, up to the closing quote. -/
def parseStringBody : List Char → Option (List Char × List Char)
  | [] => none
  | c :: rest =>
    if c = '\\' then
      match rest with
      | [] => none
      | d :: rest2 => (parseStringBody rest2).map (fun p => (d :: p.1, p.2))
    else if c = '"' then some ([], rest)
    else (parseStringBody rest).map (fun p => (c :: p.1, p.2))

/-- Split a maximal run of leading decimal digits from the input. -/
def takeDigits : List Char → List Char × List Char
  | [] => ([], [])
  | c :: cs =>
    if c.isDigit then
      let p := takeDigits cs
      (c :: p.1, p.2)
    else ([], c :: cs)

/-- Whether the input begins with a decimal digit. -/
def startsWithDigit : List Char → Bool
  | [] => false
  | c :: _ => c.isDigit

mutual

/-- Parse one JSON value; returns the value and the unconsumed remainder. -/
def parseVal : Nat → List Char → Option (Json × List Char)
  | 0, _ => none
  | _ + 1, [] => none
  | fuel + 1, c :: cs =>
    if c = 'n' then (expectChars ['u', 'l', 'l'] cs).map (fun r => (Json.null, r))
    else if c = 't' then (expectChars ['r', 'u', 'e'] cs).map (fun r => (Json.bool true, r))
    else if c = 'f' then (expectChars ['a', 'l', 's', 'e'] cs).map (fun r => (Json.bool false, r))
    else if c = '"' then (parseStringBody cs).map (fun p => (Json.str ⟨p.1⟩, p.2))
    else if c = '-' then
      match takeDigits cs with
      | ([], _) => none
      | (ds, rest) => some (Json.num (-(digitsVal ds : Int)), rest)
    else if c.isDigit then
      let p := takeDigits (c :: cs)
      some (Json.num (digitsVal p.1 : Int), p.2)
    else if c = '[' then (parseArrElems fuel cs).map (fun p => (Json.arr p.1, p.2))
    else if c = lbrace then (parseObjFields fuel cs).map (fun p => (Json.obj p.1, p.2))
    else none

/-- Parse array elements after the opening bracket. -/
def parseArrElems : Nat → List Char → Option (List Json × List Char)
  | 0, _ => none
  | _ + 1, [] => none
  | fuel + 1, c :: cs =>
    if c = ']' then some ([], cs)
    else
      match parseVal fuel (c :: cs) with
      | none => none
      | some (v, r) =>
        match r with
        | ',' :: r2 =>
          match parseArrElems fuel r2 with
          | none => none
          | some (vs, r3) => some (v :: vs, r3)
        | ']' :: r2 => some ([v], r2)
        | _ => none

/-- Parse object fields after the opening brace. -/
def parseObjFields : Nat → List Char → Option (List (String × Json) × List Char)
  | 0, _ => none
  | _ + 1, [] => none
  | fuel + 1, c :: cs =>
    if c = rbrace then some ([], cs)
    else if c = '"' then
      match parseStringBody cs with
      | none => none
      | some (k, r) =>
        match r with
        | ':' :: r2 =>
          match parseVal fuel r2 with
          | none => none
          | some (v, r3) =>
            match r3 with
            | ',' :: r4 =>
              match parseObjFields fuel r4 with
              | none => none
              | some (fs, r5) => some ((⟨k⟩, v) :: fs, r5)
            | d :: r4 => if d = rbrace then some ([(⟨k⟩, v)], r4) else none
            | [] => none
        | _ => none
    else none

end

mutual

/-- Fuel sufficient for `parseVal` to parse this value's encoding. -/
def Json.needFuel : Json → Nat
  | .arr es => Json.needFuelArr es + 1
  | .obj fs => Json.needFuelObj fs + 1
  | _ => 1

/-- Fuel sufficient for `parseArrElems` on this element list's encoding. -/
def Json.needFuelArr : List Json → Nat
  | [] => 1
  | e :: es => max (Json.needFuel e) (Json.needFuelArr es) + 1

/-- Fuel sufficient for `parseObjFields` on this field list's encoding. -/
def Json.needFuelObj : List (String × Json) → Nat
  | [] => 1
  | kv :: fs => max (Json.needFuel kv.2) (Json.needFuelObj fs) + 1

end

/-- Parse a complete JSON document (model of `serde_json::from_str`). -/
def Json.parse (s : String) : Except String Json :=
  match parseVal (s.data.length + 1) s.data with
  | some (j, []) => .ok j
  | some (_, _ :: _) => .error "trailing characters"
  | none => .error "invalid JSON"

/-- The characters that can start an encoded JSON value. -/
def goodHead (c : Char) : Prop :=
  c = 'n' ∨ c = 't' ∨ c = 'f' ∨ c = '"' ∨ c = '-' ∨ c.isDigit ∨ c = '[' ∨ c = lbrace

/-- Round-trip property of one JSON value: with enough fuel, parsing its
encoding (followed by any non-digit-led remainder) recovers it exactly. -/
def JsonRT (j : Json) : Prop :=
  ∀ fuel rest, Json.needFuel j ≤ fuel → startsWithDigit rest = false →
    parseVal fuel (j.encodeChars ++ rest) = some (j, rest)

/-! ## Scalar micro-codecs -/

/-- Split a character list at every occurrence of a separator character,
keeping empty pieces (model of Rust `str::split(char)`). -/
def splitCharAux (c : Char) : List Char → List (List Char)
  | [] => [[]]
  | d :: rest =>
    match splitCharAux c rest with
    | [] => if d = c then [[], []] else [[d]]
    | x :: xs => if d = c then [] :: x :: xs else (d :: x) :: xs

/-- String-level split on a separator character (Rust `str::split(char)`):
`""` yields `[""]` and empty pieces are kept. -/
def splitChar (c : Char) (s : String) : List String :=
  (splitCharAux c s.data).map (fun l => ⟨l⟩)

/-- Rust `str::parse::<usize>`: an optional leading plus sign followed by one
or more decimal digits (modelled without an overflow bound). -/
def parseUsize (s : String) : Option Nat :=
  let cs := match s.data with
    | '+' :: rest => rest
    | cs => cs
  if cs ≠ [] ∧ cs.all Char.isDigit then some (digitsVal cs) else none

/-- `Crop` from `transform_properties.rs`: pixels cropped from each side. -/
structure Crop where
  top : Nat
  bottom : Nat
  left : Nat
  right : Nat
deriving Repr, DecidableEq

/-- `impl FromStr for Crop`: split on `:`, require exactly four tokens
`[left, right, top, bottom]`, each an unsigned integer. -/
def Crop.from_str (s : String) : Except String Crop :=
  match splitChar ':' s with
  | [l, r, t, b] =>
    match parseUsize l, parseUsize r, parseUsize t, parseUsize b with
    | some lv, some rv, some tv, some bv =>
      .ok { top := tv, bottom := bv, left := lv, right := rv }
    | _, _, _, _ => .error ("Failed to parse crop region string: " ++ s)
  | _ => .error ("Bad resolution format: " ++ s)

/-- `impl Serialize for Crop`: the string `"<left>:<right>:<top>:<bottom>"`. -/
def Crop.serializeStr (c : Crop) : String :=
  toString c.left ++ ":" ++ toString c.right ++ ":" ++ toString c.top ++ ":" ++ toString c.bottom

/-- Modelled from the spec: `pipeline/resolution.rs` is not among the provided
sources.  `Resolution` is encoded as `"<width>x<height>"`; decode fails on any
other shape. -/
structure Resolution where
  width : Nat
  height : Nat
deriving Repr, DecidableEq

/-- Modelled from the spec: decode of the `"<width>x<height>"` micro-format. -/
def Resolution.from_str (s : String) : Except String Resolution :=
  match splitChar 'x' s with
  | [w, h] =>
    match parseUsize w, parseUsize h with
    | some wv, some hv => .ok { width := wv, height := hv }
    | _, _ => .error ("Bad resolution format: " ++ s)
  | _ => .error ("Bad resolution format: " ++ s)

/-- Modelled from the spec: encode of `Resolution` as `"<width>x<height>"`. -/
def Resolution.serializeStr (r : Resolution) : String :=
  toString r.width ++ "x" ++ toString r.height

/-- `FlipDirection` from `transform_properties.rs`. -/
inductive FlipDirection where
  | horizontal
  | vertical
deriving Repr, DecidableEq

/-- Wire decode of `FlipDirection` (serde `snake_case`). -/
def FlipDirection.fromWire (s : String) : Except String FlipDirection :=
  if s = "horizontal" then .ok .horizontal
  else if s = "vertical" then .ok .vertical
  else .error ("unknown variant " ++ s)

/-- Wire encode of `FlipDirection`. -/
def FlipDirection.toWire : FlipDirection → String
  | .horizontal => "horizontal"
  | .vertical => "vertical"

/-- `RotateDirection` from `video_source_properties.rs`. -/
inductive RotateDirection where
  | clockwise90
  | clockwise180
  | counterClockwise90
deriving Repr, DecidableEq

/-- Wire decode of `RotateDirection`; `"counter_clockwise180"` is a
deprecated alias of `"clockwise180"`. -/
def RotateDirection.fromWire (s : String) : Except String RotateDirection :=
  if s = "clockwise90" then .ok .clockwise90
  else if s = "clockwise180" then .ok .clockwise180
  else if s = "counter_clockwise180" then .ok .clockwise180
  else if s = "counter_clockwise90" then .ok .counterClockwise90
  else .error ("unknown variant " ++ s)

/-- Wire encode of `RotateDirection`: canonical spellings only. -/
def RotateDirection.toWire : RotateDirection → String
  | .clockwise90 => "clockwise90"
  | .clockwise180 => "clockwise180"
  | .counterClockwise90 => "counter_clockwise90"

/-- `ModelColorFormat` from `models.rs`. -/
inductive ModelColorFormat where
  | rgb
  | bgr
  | grayscale
deriving Repr, DecidableEq

/-- Wire decode of `ModelColorFormat`; `"r_g_b"` and `"b_g_r"` are deprecated
aliases accepted on decode only. -/
def ModelColorFormat.fromWire (s : String) : Except String ModelColorFormat :=
  if s = "rgb" then .ok .rgb
  else if s = "r_g_b" then .ok .rgb
  else if s = "bgr" then .ok .bgr
  else if s = "b_g_r" then .ok .bgr
  else if s = "grayscale" then .ok .grayscale
  else .error ("unknown variant " ++ s)

/-- Wire encode of `ModelColorFormat`: canonical spellings only. -/
def ModelColorFormat.toWire : ModelColorFormat → String
  | .rgb => "rgb"
  | .bgr => "bgr"
  | .grayscale => "grayscale"

/-! ## Pad addressing and pad sets

Modelled from the spec: `pipeline/pad.rs` is not among the provided sources.
A `SinkPad` is rendered as the single token `"<node>.<name>"`, split on the
first dot with both sides required non-empty. -/

/-- Reference to another node's input pad. -/
structure SinkPad where
  node : String
  name : String
deriving Repr, DecidableEq

/-- Split a character list at the first dot. -/
def splitFirstDot : List Char → Option (List Char × List Char)
  | [] => none
  | c :: rest =>
    if c = '.' then some ([], rest)
    else (splitFirstDot rest).map (fun p => (c :: p.1, p.2))

/-- Modelled from the spec: parse a `"<node>.<name>"` token. -/
def SinkPad.from_str (s : String) : Except String SinkPad :=
  match splitFirstDot s.data with
  | some (a, b) =>
    if a ≠ [] ∧ b ≠ [] then .ok { node := ⟨a⟩, name := ⟨b⟩ }
    else .error ("invalid sink pad token: " ++ s)
  | none => .error ("invalid sink pad token: " ++ s)

/-- Modelled from the spec: render a sink pad as `"<node>.<name>"`. -/
def SinkPad.toWire (p : SinkPad) : String := p.node ++ "." ++ p.name

/-- A named output port and the sinks it fans out to. -/
structure SourcePad where
  name : String
  sinks : List SinkPad
deriving Repr, DecidableEq

/-- Insert-or-replace into a name-sorted pad list. -/
def insertPad (p : SourcePad) : List SourcePad → List SourcePad
  | [] => [p]
  | q :: rest =>
    if p.name < q.name then p :: q :: rest
    else if p.name = q.name then p :: rest
    else q :: insertPad p rest

/-- Modelled from the spec: a set of source pads keyed by pad name, kept in
lexicographic name order (the spec's recommended stable order). -/
structure SourcePads where
  pads : List SourcePad
deriving Repr, DecidableEq

/-- The empty pad set. -/
def SourcePads.new : SourcePads := ⟨[]⟩

/-- Add a pad, replacing any existing pad of the same name. -/
def SourcePads.add (ps : SourcePads) (p : SourcePad) : SourcePads := ⟨insertPad p ps.pads⟩

/-- All pads, in stored order. -/
def SourcePads.all (ps : SourcePads) : List SourcePad := ps.pads

/-- Look up a pad by name. -/
def SourcePads.get (ps : SourcePads) (n : String) : Option SourcePad :=
  ps.pads.find? (fun p => p.name == n)

/-- Whether the pad set is empty. -/
def SourcePads.isEmptySet (ps : SourcePads) : Bool := ps.pads.isEmpty

/-! ## Node properties (polymorphic payload) -/

/-- UUIDs are modelled as strings. -/
abbrev Uuid := String

/-- URLs are modelled as strings. -/
abbrev Url := String

/-- Non-empty vector (model of the `vec1` crate's `Vec1`). -/
structure Vec1 (α : Type) where
  head : α
  tail : List α
deriving Repr, DecidableEq

/-- The elements of a `Vec1`, head first. -/
def Vec1.toList {α : Type} (v : Vec1 α) : List α := v.head :: v.tail

/-- `CommonVideoSourceProperties` from `video_source_properties.rs`
(`rotate` is `f64` in the source, modelled at integer precision). -/
structure CommonVideoSourceProperties where
  source_id : Uuid
  resolution : Option Resolution
  framerate : Option Nat
  rotate : Option Int
  rotate_fixed_angle : Option RotateDirection
  flip : Option FlipDirection
  crop : Option Crop
deriving Repr, DecidableEq

/-- `UsbCameraRuntime`. -/
structure UsbCameraRuntime where
  uri : Url
  name : String
deriving Repr, DecidableEq

/-- `CsiCameraRuntime`. -/
structure CsiCameraRuntime where
  uri : Url
  name : String
deriving Repr, DecidableEq

/-- `CameraRuntime`: USB or CSI. -/
inductive CameraRuntime where
  | usb (r : UsbCameraRuntime)
  | csi (r : CsiCameraRuntime)
deriving Repr, DecidableEq

/-- `CameraRuntime::uri`. -/
def CameraRuntime.uri : CameraRuntime → Url
  | .usb r => r.uri
  | .csi r => r.uri

/-- `CameraRuntime::name`. -/
def CameraRuntime.name : CameraRuntime → String
  | .usb r => r.name
  | .csi r => r.name

/-- `CameraProperties`: common fields plus an optional flattened runtime. -/
structure CameraProperties where
  common : CommonVideoSourceProperties
  runtime : Option CameraRuntime
deriving Repr, DecidableEq

/-- `InputRtspStreamRuntime`. -/
structure InputRtspStreamRuntime where
  uri : Url
  name : String
deriving Repr, DecidableEq

/-- `InputWebRtcStreamRuntime` (no fields yet in the source). -/
structure InputWebRtcStreamRuntime where
deriving Repr, DecidableEq

/-- `InputUrlFileStreamRuntime`: a name and a non-empty URL list. -/
structure InputUrlFileStreamRuntime where
  name : String
  urls : Vec1 Url
deriving Repr, DecidableEq

/-- `InputLumeoFileStreamRuntime`: a name and a non-empty file-id list. -/
structure InputLumeoFileStreamRuntime where
  name : String
  file_ids : Vec1 Uuid
deriving Repr, DecidableEq

/-- `InputStreamRuntime`: the stream-source runtime variants. -/
inductive InputStreamRuntime where
  | urlFile (r : InputUrlFileStreamRuntime)
  | lumeoFile (r : InputLumeoFileStreamRuntime)
  | rtsp (r : InputRtspStreamRuntime)
  | webRtc (r : InputWebRtcStreamRuntime)
deriving Repr, DecidableEq

/-- `InputStreamRuntime::uri`: for `UrlFile` the single URL only when the
list has exactly one element (ambiguous otherwise, so `None`). -/
def InputStreamRuntime.uri : InputStreamRuntime → Option Url
  | .lumeoFile _ => none
  | .rtsp r => some r.uri
  | .urlFile r =>
    match r.urls.toList with
    | [url] => some url
    | _ => none
  | .webRtc _ => none

/-- `InputStreamRuntime::name`. -/
def InputStreamRuntime.name : InputStreamRuntime → Option String
  | .lumeoFile r => some r.name
  | .rtsp r => some r.name
  | .urlFile r => some r.name
  | .webRtc _ => none

/-- `InputStreamProperties`: common fields plus optional flattened runtime. -/
structure InputStreamProperties where
  common : CommonVideoSourceProperties
  runtime : Option InputStreamRuntime
deriving Repr, DecidableEq

/-- `VideoSourceProperties`: camera or stream source. -/
inductive VideoSourceProperties where
  | camera (p : CameraProperties)
  | stream (p : InputStreamProperties)
deriving Repr, DecidableEq

/-- `VideoSourceProperties::uri`: best-effort projection over the variant
tree (`None` when no runtime, or when the stream runtime is ambiguous). -/
def VideoSourceProperties.uri : VideoSourceProperties → Option Url
  | .camera p =>
    match p.runtime with
    | none => none
    | some rt => some rt.uri
  | .stream p =>
    match p.runtime with
    | none => none
    | some rt => rt.uri

/-- `VideoSourceProperties::name`. -/
def VideoSourceProperties.name : VideoSourceProperties → Option String
  | .camera p =>
    match p.runtime with
    | none => none
    | some rt => some rt.name
  | .stream p =>
    match p.runtime with
    | none => none
    | some rt => rt.name

/-- `TransformProperties` (`rotation` is `f64` in the source, modelled at
integer precision). -/
structure TransformProperties where
  framerate : Option Nat
  resolution : Option Resolution
  rotation : Option Int
  flip_direction : Option FlipDirection
  crop_region : Option Crop
deriving Repr, DecidableEq

/-- `GridProperties` from `grid_properties.rs`. -/
structure GridProperties where
  rows : Nat
  columns : Nat
  resolution : Option Resolution
deriving Repr, DecidableEq

/-- `GstTemplateProperties` from `gst_template_properties.rs`. -/
structure GstTemplateProperties where
  definition : String
  props : List (String × Json)
deriving Repr

/-- Modelled from the spec and the repository's tests: the encoder node's
payload (`EncodeProperties`) lives in a source file not provided. -/
structure EncodeProperties where
  codec : String
  max_bitrate : Option Nat
  bitrate : Option Nat
  quality : Option Nat
  framerate : Option Nat
deriving Repr, DecidableEq

/-- Modelled from the spec and the repository's tests: the RTSP stream sink
runtime (`StreamRtspOutRuntime`) lives in a source file not provided. -/
structure StreamRtspOutRuntime where
  uri : Url
  stream_id : Uuid
  udp_port : Option Nat
deriving Repr, DecidableEq

/-- Modelled from the spec and the repository's tests: the RTSP stream sink
payload (`StreamRtspOutProperties`). -/
structure StreamRtspOutProperties where
  runtime : Option StreamRtspOutRuntime
deriving Repr, DecidableEq

/-- Modelled from the spec: the closed node-kind variant set (the dispatching
`NodeProperties` enum lives in a source file not provided); the decode tag
field is `type`. -/
inductive NodeProperties where
  | videoSource (p : VideoSourceProperties)
  | encode (p : EncodeProperties)
  | streamRtspOut (p : StreamRtspOutProperties)
  | transform (p : TransformProperties)
  | grid (p : GridProperties)
  | gstTemplate (p : GstTemplateProperties)
deriving Repr

/-! ## Node -/

/-- Modelled from the spec: `pipeline/node.rs` is not among the provided
sources.  A node is an id, a polymorphic payload and a source pad set. -/
structure Node where
  id : String
  properties : NodeProperties
  source_pads : SourcePads
deriving Repr

/-- `Node::new`: pure value construction, absent pads default to empty. -/
def Node.new (id : String) (props : NodeProperties) (pads : Option SourcePads) : Node :=
  { id := id, properties := props, source_pads := pads.getD SourcePads.new }

/-- All sink-pad node references of a node, in pad order. -/
def Node.sinkNodes (n : Node) : List String :=
  n.source_pads.all.flatMap (fun sp => sp.sinks.map (fun s => s.node))

/-! ## Pipeline: the validating graph codec (`pipeline.rs`) -/

/-- Sorted insert-or-replace on a key-sorted association list (model of
`BTreeMap::insert`). -/
def mapInsert (k : String) (v : Node) : List (String × Node) → List (String × Node)
  | [] => [(k, v)]
  | (k2, v2) :: rest =>
    if k < k2 then (k, v) :: (k2, v2) :: rest
    else if k = k2 then (k, v) :: rest
    else (k2, v2) :: mapInsert k v rest

/-- `Pipeline`: an id-keyed, id-sorted mapping of nodes
(`BTreeMap<String, Node>` modelled as a key-sorted association list). -/
structure Pipeline where
  nodes : List (String × Node)
deriving Repr

/-- `Pipeline::new`. -/
def Pipeline.new : Pipeline := ⟨[]⟩

/-- `Pipeline::add_node`: keyed by the node's own id, replacing any
existing node with that id. -/
def Pipeline.add_node (p : Pipeline) (n : Node) : Pipeline :=
  ⟨mapInsert n.id n p.nodes⟩

/-- `Pipeline::nodes`: the node values in mapping (id-sorted) order. -/
def Pipeline.nodesList (p : Pipeline) : List Node := p.nodes.map Prod.snd

/-- `Pipeline::node_by_id`. -/
def Pipeline.node_by_id (p : Pipeline) (id : String) : Option Node :=
  p.nodes.lookup id

/-- All sink-pad node references in the pipeline, in validation order. -/
def Pipeline.allSinkNodes (p : Pipeline) : List String :=
  p.nodesList.flatMap Node.sinkNodes

/-- The dangling-reference error text
(`format!("Destination node `{}` not found", sink.node)`). -/
def dstNotFoundMsg (m : String) : String :=
  "Destination node `" ++ m ++ "` not found"

/-- Validation inner loop: each sink's node id must exist. -/
def checkSinks (p : Pipeline) : List SinkPad → Except String Unit
  | [] => .ok ()
  | s :: rest =>
    match p.node_by_id s.node with
    | some _ => checkSinks p rest
    | none => .error (dstNotFoundMsg s.node)

/-- Validation middle loop over a node's source pads. -/
def checkPads (p : Pipeline) : List SourcePad → Except String Unit
  | [] => .ok ()
  | sp :: rest =>
    match checkSinks p sp.sinks with
    | .ok _ => checkPads p rest
    | .error e => .error e

/-- Validation outer loop over the pipeline's nodes. -/
def checkNodes (p : Pipeline) : List Node → Except String Unit
  | [] => .ok ()
  | n :: rest =>
    match checkPads p n.source_pads.all with
    | .ok _ => checkNodes p rest
    | .error e => .error e

/-- Index phase of the decode: insert every node, last write wins. -/
def Pipeline.build (ns : List Node) : Pipeline :=
  ns.foldl Pipeline.add_node Pipeline.new

/-- `impl Deserialize for Pipeline`, from the already-decoded node list:
index the nodes, then validate every sink reference. -/
def Pipeline.deserializeNodes (ns : List Node) : Except String Pipeline :=
  let p := Pipeline.build ns
  match checkNodes p p.nodesList with
  | .ok _ => .ok p
  | .error e => .error e

/-! ## Node and pipeline serialization to JSON -/

/-- `#[skip_serializing_none]`: emit an optional field only when present. -/
def optF (k : String) (v : Option Json) : List (String × Json) :=
  match v with
  | none => []
  | some j => [(k, j)]

/-- Encode the flattened common video-source fields. -/
def encodeCommonVideo (c : CommonVideoSourceProperties) : List (String × Json) :=
  [("source_id", Json.str c.source_id)]
    ++ optF "resolution" (c.resolution.map (fun r => Json.str r.serializeStr))
    ++ optF "framerate" (c.framerate.map (fun n => Json.num n))
    ++ optF "rotate" (c.rotate.map (fun n => Json.num n))
    ++ optF "rotate_fixed_angle" (c.rotate_fixed_angle.map (fun d => Json.str d.toWire))
    ++ optF "flip" (c.flip.map (fun d => Json.str d.toWire))
    ++ optF "crop" (c.crop.map (fun cr => Json.str cr.serializeStr))

/-- Encode the flattened optional camera runtime (externally tagged). -/
def encodeCameraRuntime : Option CameraRuntime → List (String × Json)
  | none => []
  | some (.usb r) => [("usb", Json.obj [("uri", Json.str r.uri), ("name", Json.str r.name)])]
  | some (.csi r) => [("csi", Json.obj [("uri", Json.str r.uri), ("name", Json.str r.name)])]

/-- Encode the flattened optional stream runtime (externally tagged). -/
def encodeInputStreamRuntime : Option InputStreamRuntime → List (String × Json)
  | none => []
  | some (.urlFile r) =>
    [("url_file", Json.obj [("name", Json.str r.name),
      ("urls", Json.arr (r.urls.toList.map Json.str))])]
  | some (.lumeoFile r) =>
    [("lumeo_file", Json.obj [("name", Json.str r.name),
      ("file_ids", Json.arr (r.file_ids.toList.map Json.str))])]
  | some (.rtsp r) => [("rtsp", Json.obj [("uri", Json.str r.uri), ("name", Json.str r.name)])]
  | some (.webRtc _) => [("web_rtc", Json.obj [])]

/-- Modelled from the spec: encode a node payload, `type`-tagged. -/
def encodeProperties : NodeProperties → Json
  | .videoSource (.camera p) =>
    Json.obj ([("type", Json.str "video"), ("source_type", Json.str "camera")]
      ++ encodeCommonVideo p.common ++ encodeCameraRuntime p.runtime)
  | .videoSource (.stream p) =>
    Json.obj ([("type", Json.str "video"), ("source_type", Json.str "stream")]
      ++ encodeCommonVideo p.common ++ encodeInputStreamRuntime p.runtime)
  | .encode p =>
    Json.obj ([("type", Json.str "encode"), ("codec", Json.str p.codec)]
      ++ optF "max_bitrate" (p.max_bitrate.map (fun n => Json.num n))
      ++ optF "bitrate" (p.bitrate.map (fun n => Json.num n))
      ++ optF "quality" (p.quality.map (fun n => Json.num n))
      ++ optF "framerate" (p.framerate.map (fun n => Json.num n)))
  | .streamRtspOut p =>
    Json.obj ([("type", Json.str "stream_rtsp_out")]
      ++ (match p.runtime with
        | none => []
        | some rt =>
          [("uri", Json.str rt.uri), ("stream_id", Json.str rt.stream_id)]
            ++ optF "udp_port" (rt.udp_port.map (fun n => Json.num n))))
  | .transform p =>
    Json.obj ([("type", Json.str "transform")]
      ++ optF "framerate" (p.framerate.map (fun n => Json.num n))
      ++ optF "resolution" (p.resolution.map (fun r => Json.str r.serializeStr))
      ++ optF "rotation" (p.rotation.map (fun n => Json.num n))
      ++ optF "flip_direction" (p.flip_direction.map (fun d => Json.str d.toWire))
      ++ optF "crop_region" (p.crop_region.map (fun c => Json.str c.serializeStr)))
  | .grid p =>
    Json.obj ([("type", Json.str "grid"), ("rows", Json.num p.rows),
      ("columns", Json.num p.columns)]
      ++ optF "resolution" (p.resolution.map (fun r => Json.str r.serializeStr)))
  | .gstTemplate p =>
    Json.obj [("type", Json.str "gst_template"), ("definition", Json.str p.definition),
      ("props", Json.obj p.props)]

/-- Encode a pad set as the `wires` mapping `padName -> [token, ...]`. -/
def encodeSourcePads (ps : SourcePads) : Json :=
  Json.obj (ps.pads.map (fun sp =>
    (sp.name, Json.arr (sp.sinks.map (fun s => Json.str s.toWire)))))

/-- Modelled from the spec: encode a node as
`{"id": ..., "properties": ..., "wires": ...}`. -/
def encodeNode (n : Node) : Json :=
  Json.obj [("id", Json.str n.id), ("properties", encodeProperties n.properties),
    ("wires", encodeSourcePads n.source_pads)]

/-- `impl Serialize for Pipeline`: a flat array of the node values in the
mapping's id-sorted order (never a wrapping object). -/
def Pipeline.serializeJson (p : Pipeline) : Json :=
  Json.arr (p.nodesList.map encodeNode)

/-! ## Node and pipeline decoding from JSON -/

/-- Expect a JSON string. -/
def getStr : Json → Except String String
  | .str s => .ok s
  | _ => .error "invalid type: expected a string"

/-- Expect a non-negative JSON number (an unsigned integer field). -/
def getNat : Json → Except String Nat
  | .num n => if n < 0 then .error "invalid value: negative integer" else .ok n.toNat
  | _ => .error "invalid type: expected an unsigned integer"

/-- Expect a JSON number. -/
def getInt : Json → Except String Int
  | .num n => .ok n
  | _ => .error "invalid type: expected a number"

/-- Expect a JSON array. -/
def getArr : Json → Except String (List Json)
  | .arr es => .ok es
  | _ => .error "invalid type: expected a sequence"

/-- Expect a JSON object, yielding its fields. -/
def getObjFields : Json → Except String (List (String × Json))
  | .obj fs => .ok fs
  | _ => .error "invalid type: expected a map"

/-- A required field. -/
def reqField (fs : List (String × Json)) (k : String) : Except String Json :=
  match fs.lookup k with
  | some v => .ok v
  | none => .error ("missing field " ++ k)

/-- An optional field (absent or JSON `null` is `none`, as for serde
`Option`). -/
def optField {α : Type} (fs : List (String × Json)) (k : String)
    (f : Json → Except String α) : Except String (Option α) :=
  match fs.lookup k with
  | none => .ok none
  | some .null => .ok none
  | some v => (f v).map some

/-- Decode a non-empty list. -/
def decodeVec1 {α : Type} (f : Json → Except String α) (j : Json) :
    Except String (Vec1 α) := do
  let es ← getArr j
  let xs ← es.mapM f
  match xs with
  | [] => .error "invalid length 0, expected at least 1 element"
  | x :: rest => .ok ⟨x, rest⟩

/-- Decode the flattened common video-source fields (the manual
`Deserialize` impl: `fps` is a legacy alias folded into `framerate`). -/
def decodeCommonVideo (fs : List (String × Json)) :
    Except String CommonVideoSourceProperties := do
  let sid ← reqField fs "source_id" >>= getStr
  let res ← optField fs "resolution" (fun j => getStr j >>= Resolution.from_str)
  let fr ← optField fs "framerate" getNat
  let fps ← optField fs "fps" getNat
  let rot ← optField fs "rotate" getInt
  let rfa ← optField fs "rotate_fixed_angle" (fun j => getStr j >>= RotateDirection.fromWire)
  let fl ← optField fs "flip" (fun j => getStr j >>= FlipDirection.fromWire)
  let cr ← optField fs "crop" (fun j => getStr j >>= Crop.from_str)
  .ok { source_id := sid, resolution := res, framerate := fr.or fps, rotate := rot,
        rotate_fixed_angle := rfa, flip := fl, crop := cr }

/-- Decode the flattened optional camera runtime: present exactly when a
`usb` or `csi` key is present. -/
def decodeCameraRuntime (fs : List (String × Json)) :
    Except String (Option CameraRuntime) :=
  match fs.lookup "usb" with
  | some v => (do
      let o ← getObjFields v
      let uri ← reqField o "uri" >>= getStr
      let nm ← reqField o "name" >>= getStr
      .ok (some (.usb ⟨uri, nm⟩)))
  | none =>
    match fs.lookup "csi" with
    | some v => (do
        let o ← getObjFields v
        let uri ← reqField o "uri" >>= getStr
        let nm ← reqField o "name" >>= getStr
        .ok (some (.csi ⟨uri, nm⟩)))
    | none => .ok none

/-- Decode the flattened optional stream runtime: present exactly when one
of the runtime-variant keys is present. -/
def decodeInputStreamRuntime (fs : List (String × Json)) :
    Except String (Option InputStreamRuntime) :=
  match fs.lookup "url_file" with
  | some v => (do
      let o ← getObjFields v
      let nm ← reqField o "name" >>= getStr
      let urls ← reqField o "urls" >>= decodeVec1 getStr
      .ok (some (.urlFile ⟨nm, urls⟩)))
  | none =>
    match fs.lookup "lumeo_file" with
    | some v => (do
        let o ← getObjFields v
        let nm ← reqField o "name" >>= getStr
        let ids ← reqField o "file_ids" >>= decodeVec1 getStr
        .ok (some (.lumeoFile ⟨nm, ids⟩)))
    | none =>
      match fs.lookup "rtsp" with
      | some v => (do
          let o ← getObjFields v
          let uri ← reqField o "uri" >>= getStr
          let nm ← reqField o "name" >>= getStr
          .ok (some (.rtsp ⟨uri, nm⟩)))
      | none =>
        match fs.lookup "web_rtc" with
        | some _ => .ok (some (.webRtc ⟨⟩))
        | none => .ok none

/-- Decode `VideoSourceProperties`: dispatch on the `source_type` tag. -/
def decodeVideoSourceProperties (fs : List (String × Json)) :
    Except String VideoSourceProperties := do
  let st ← reqField fs "source_type" >>= getStr
  if st = "camera" then do
    let c ← decodeCommonVideo fs
    let rt ← decodeCameraRuntime fs
    .ok (.camera ⟨c, rt⟩)
  else if st = "stream" then do
    let c ← decodeCommonVideo fs
    let rt ← decodeInputStreamRuntime fs
    .ok (.stream ⟨c, rt⟩)
  else .error ("unknown variant " ++ st)

/-- Decode `EncodeProperties` (`fps` as legacy alias of `framerate`). -/
def decodeEncodeProperties (fs : List (String × Json)) :
    Except String EncodeProperties := do
  let codec ← reqField fs "codec" >>= getStr
  let mb ← optField fs "max_bitrate" getNat
  let br ← optField fs "bitrate" getNat
  let q ← optField fs "quality" getNat
  let fr ← optField fs "framerate" getNat
  let fps ← optField fs "fps" getNat
  .ok { codec := codec, max_bitrate := mb, bitrate := br, quality := q,
        framerate := fr.or fps }

/-- Decode `StreamRtspOutProperties`: the flattened optional runtime is
present exactly when its required fields are. -/
def decodeStreamRtspOut (fs : List (String × Json)) :
    Except String StreamRtspOutProperties :=
  match fs.lookup "uri" with
  | none => .ok { runtime := none }
  | some _ => do
    let uri ← reqField fs "uri" >>= getStr
    let sid ← reqField fs "stream_id" >>= getStr
    let port ← optField fs "udp_port" getNat
    .ok { runtime := some { uri := uri, stream_id := sid, udp_port := port } }

/-- Decode `TransformProperties` (aliases `fps` and `crop`). -/
def decodeTransform (fs : List (String × Json)) :
    Except String TransformProperties := do
  let fr ← optField fs "framerate" getNat
  let fps ← optField fs "fps" getNat
  let res ← optField fs "resolution" (fun j => getStr j >>= Resolution.from_str)
  let rot ← optField fs "rotation" getInt
  let fl ← optField fs "flip_direction" (fun j => getStr j >>= FlipDirection.fromWire)
  let cr ← optField fs "crop_region" (fun j => getStr j >>= Crop.from_str)
  let crAlias ← optField fs "crop" (fun j => getStr j >>= Crop.from_str)
  .ok { framerate := fr.or fps, resolution := res, rotation := rot,
        flip_direction := fl, crop_region := cr.or crAlias }

/-- Decode `GridProperties`. -/
def decodeGrid (fs : List (String × Json)) : Except String GridProperties := do
  let rows ← reqField fs "rows" >>= getNat
  let cols ← reqField fs "columns" >>= getNat
  let res ← optField fs "resolution" (fun j => getStr j >>= Resolution.from_str)
  .ok { rows := rows, columns := cols, resolution := res }

/-- Decode `GstTemplateProperties` (`props` defaults to empty). -/
def decodeGstTemplate (fs : List (String × Json)) :
    Except String GstTemplateProperties := do
  let defn ← reqField fs "definition" >>= getStr
  let props ← match fs.lookup "props" with
    | none => pure []
    | some v => getObjFields v
  .ok { definition := defn, props := props }

/-- Modelled from the spec: decode a node payload by dispatching on the
`type` tag; an unknown tag is a failure naming the value. -/
def decodeNodeProperties (j : Json) : Except String NodeProperties := do
  let fs ← getObjFields j
  let tag ← reqField fs "type" >>= getStr
  if tag = "video" then (decodeVideoSourceProperties fs).map .videoSource
  else if tag = "encode" then (decodeEncodeProperties fs).map .encode
  else if tag = "stream_rtsp_out" then (decodeStreamRtspOut fs).map .streamRtspOut
  else if tag = "transform" then (decodeTransform fs).map .transform
  else if tag = "grid" then (decodeGrid fs).map .grid
  else if tag = "gst_template" then (decodeGstTemplate fs).map .gstTemplate
  else .error ("unknown node type: " ++ tag)

/-- Decode one wire token. -/
def decodeSinkPadJson (j : Json) : Except String SinkPad :=
  getStr j >>= SinkPad.from_str

/-- Decode the `wires` mapping into a pad set. -/
def decodeSourcePads (j : Json) : Except String SourcePads := do
  let fs ← getObjFields j
  let pads ← fs.mapM (fun kv => do
    let sinksJson ← getArr kv.2
    let sinks ← sinksJson.mapM decodeSinkPadJson
    pure { name := kv.1, sinks := sinks : SourcePad })
  .ok (pads.foldl SourcePads.add SourcePads.new)

/-- Modelled from the spec: decode a node record
(`wires` optional, defaulting to the empty pad set). -/
def decodeNode (j : Json) : Except String Node := do
  let fs ← getObjFields j
  let id ← reqField fs "id" >>= getStr
  let props ← reqField fs "properties" >>= decodeNodeProperties
  let pads ← match fs.lookup "wires" with
    | none => pure SourcePads.new
    | some .null => pure SourcePads.new
    | some w => decodeSourcePads w
  pure (Node.new id props (some pads))

/-- `impl Deserialize for Pipeline` from a JSON value: a sequence of node
records, then the referential validation pass. -/
def Pipeline.deserializeJson (j : Json) : Except String Pipeline :=
  match j with
  | .arr xs => do
    let ns ← xs.mapM decodeNode
    Pipeline.deserializeNodes ns
  | _ => .error "invalid type: expected a sequence"

/-! ## Flexible definition decoder (`deployments.rs`) -/

/-- `serde_json::from_str::<Option<Pipeline>>` on already-parsed content:
`null` is `None`, anything else decodes as a pipeline. -/
def decodeOptionPipelineJson (j : Json) : Except String (Option Pipeline) :=
  match j with
  | .null => .ok none
  | _ => (Pipeline.deserializeJson j).map some

/-- `deserialize_pipeline_def_optionally`: native array (`visit_seq`),
stringified definition (`visit_str`), or `null` (`visit_unit`); any other
outer shape is a failure. -/
def deserialize_pipeline_def_optionally (j : Json) : Except String (Option Pipeline) :=
  match j with
  | .arr _ => (Pipeline.deserializeJson j).map some
  | .str s =>
    match Json.parse s with
    | .ok j2 => decodeOptionPipelineJson j2
    | .error e => .error e
  | .null => .ok none
  | .bool _ => .error "invalid type: boolean"
  | .num _ => .error "invalid type: number"
  | .obj _ => .error "invalid type: map"

/-- `deserialize_pipeline_def`: the non-optional variant. -/
def deserialize_pipeline_def (j : Json) : Except String Pipeline :=
  match deserialize_pipeline_def_optionally j with
  | .ok (some p) => .ok p
  | .ok none => .error "Pipeline definition is null"
  | .error e => .error e

/-! ## Well-formedness predicates -/

/-- Keys strictly sorted (the `BTreeMap` representation invariant). -/
def keysSorted : List (String × Node) → Bool
  | [] => true
  | [_] => true
  | (k1, _) :: (k2, v2) :: rest =>
    decide (k1 < k2) && keysSorted ((k2, v2) :: rest)

/-- A pipeline value reachable by construction: sorted, and every node is
keyed by its own id. -/
def Pipeline.wf (p : Pipeline) : Bool :=
  keysSorted p.nodes && p.nodes.all (fun kv => kv.2.id == kv.1)

/-- Every sink reference names a present node. -/
def Pipeline.refsValid (p : Pipeline) : Bool :=
  p.allSinkNodes.all (fun m => (p.node_by_id m).isSome)

/-- A wire token that survives the `"<node>.<name>"` grammar: the
destination id is non-empty and dot-free (the split is on the first dot)
and the pad name is non-empty. -/
def SinkPad.tokenWf (s : SinkPad) : Bool :=
  !s.node.data.isEmpty && s.node.data.all (fun c => c != '.') && !s.name.data.isEmpty

/-- Pad names strictly sorted (the pad-set representation invariant). -/
def padsSortedB : List SourcePad → Bool
  | [] => true
  | [_] => true
  | p :: q :: rest => decide (p.name < q.name) && padsSortedB (q :: rest)

/-- A pad set reachable by construction, with re-parsable wire tokens. -/
def SourcePads.wfB (ps : SourcePads) : Bool :=
  padsSortedB ps.pads && ps.pads.all (fun sp => sp.sinks.all SinkPad.tokenWf)

/-- All pad sets of the pipeline well-formed in the sense of
`SourcePads.wfB`. -/
def Pipeline.padsWf (p : Pipeline) : Bool :=
  p.nodesList.all (fun n => n.source_pads.wfB)

/-- Key order on map entries. -/
def entLt (a b : String × Node) : Prop := a.1 < b.1

/-- Outer JSON shapes the flexible decoder does not accept. -/
def jsonShapeOther : Json → Bool
  | .bool _ => true
  | .num _ => true
  | .obj _ => true
  | _ => false

/-! ## Concrete fixtures used by witnesses -/

/-- A minimal node payload. -/
def gridPropsEx : NodeProperties := .grid ⟨1, 2, none⟩

/-- A node whose only source pad wires to the absent node `ghost`. -/
def ghostNode : Node := ⟨"n1", gridPropsEx, ⟨[⟨"video", [⟨"ghost", "input"⟩]⟩]⟩⟩

/-- A node whose only source pad wires back to itself. -/
def selfNode : Node := ⟨"n1", gridPropsEx, ⟨[⟨"video", [⟨"n1", "input"⟩]⟩]⟩⟩

/-- A node `a` wired to `b`. -/
def nodeAEx : Node := ⟨"a", gridPropsEx, ⟨[⟨"video", [⟨"b", "input"⟩]⟩]⟩⟩

/-- A sink node `b`. -/
def nodeBEx : Node := ⟨"b", gridPropsEx, SourcePads.new⟩

/-- A two-node well-formed pipeline. -/
def pipelineEx : Pipeline := ⟨[("a", nodeAEx), ("b", nodeBEx)]⟩

/-- A one-node graph document. -/
def gridNodeJson : Json :=
  Json.obj [("id", Json.str "a"),
    ("properties", Json.obj [("type", Json.str "grid"), ("rows", Json.num 1),
      ("columns", Json.num 2)]),
    ("wires", Json.obj [])]

/-- The pipeline decoded from `[gridNodeJson]`. -/
def gridPipelineEx : Pipeline := ⟨[("a", ⟨"a", gridPropsEx, SourcePads.new⟩)]⟩

/-- Common video-source fields with nothing set. -/
def commonEx : CommonVideoSourceProperties := ⟨"", none, none, none, none, none, none⟩

/-- A pipeline whose single node has a dot inside its id and wires to
itself: every sink reference names a present node id, yet the wire token
`"x.y.input"` re-parses with destination `"x"`. -/
def pDotEx : Pipeline :=
  ⟨[("x.y", ⟨"x.y", gridPropsEx, ⟨[⟨"video", [⟨"x.y", "input"⟩]⟩]⟩⟩)]⟩

/-! # Theorems -/

/-! ## JSON print/parse round trip -/

theorem expectChars_append (es rest : List Char) :
    expectChars es (es ++ rest) = some rest := by
  induction es with
  | nil => rfl
  | cons e es ih => simp [expectChars, ih]

theorem parseStringBody_escape (s rest : List Char) :
    parseStringBody (escapeChars s ++ '"' :: rest) = some (s, rest) := by
  induction s with
  | nil =>
    simp only [escapeChars, List.nil_append]
    rw [parseStringBody.eq_def]
    simp
  | cons c cs ih =>
    by_cases hc : c = '"' ∨ c = '\\'
    · simp only [escapeChars, if_pos hc, List.cons_append, List.nil_append]
      rw [parseStringBody.eq_def]
      simp [ih]
    · push_neg at hc
      simp only [escapeChars, if_neg (by tauto), List.cons_append, List.nil_append]
      rw [parseStringBody.eq_def]
      simp [hc.1, hc.2, ih]

theorem takeDigits_append (ds rest : List Char) (hd : ∀ c ∈ ds, c.isDigit)
    (hr : startsWithDigit rest = false) : takeDigits (ds ++ rest) = (ds, rest) := by
  induction ds with
  | nil =>
    cases rest with
    | nil => rfl
    | cons c cs =>
      simp only [startsWithDigit] at hr
      simp [takeDigits, hr]
  | cons c cs ih =>
    have hc : c.isDigit := hd c (by simp)
    simp [takeDigits, hc, ih (fun d hmem => hd d (by simp [hmem]))]

theorem digitChar_isDigit (n : Nat) (h : n < 10) : (digitChar n).isDigit := by
  interval_cases n <;> decide

theorem digitVal_digitChar (n : Nat) (h : n < 10) : digitVal (digitChar n) = n := by
  interval_cases n <;> decide

theorem natDigits_ne_nil (n : Nat) : natDigits n ≠ [] := by
  rw [natDigits]
  split <;> simp

theorem natDigits_digits (n : Nat) : ∀ c ∈ natDigits n, c.isDigit := by
  induction n using Nat.strong_induction_on with
  | _ n ih =>
    rw [natDigits]
    split
    · next h =>
      intro c hc
      simp only [List.mem_singleton] at hc
      subst hc
      exact digitChar_isDigit n h
    · next h =>
      intro c hc
      rw [List.mem_append, List.mem_singleton] at hc
      rcases hc with h1 | h1
      · exact ih (n / 10) (Nat.div_lt_self (by omega) (by omega)) c h1
      · subst h1
        exact digitChar_isDigit _ (Nat.mod_lt _ (by omega))

theorem digitsVal_append_one (ds : List Char) (c : Char) :
    digitsVal (ds ++ [c]) = 10 * digitsVal ds + digitVal c := by
  simp [digitsVal, List.foldl_append]

theorem digitsVal_natDigits (n : Nat) : digitsVal (natDigits n) = n := by
  induction n using Nat.strong_induction_on with
  | _ n ih =>
    rw [natDigits]
    split
    · next h =>
      simp [digitsVal, digitVal_digitChar n h]
    · next h =>
      rw [digitsVal_append_one, ih (n / 10) (Nat.div_lt_self (by omega) (by omega)),
        digitVal_digitChar _ (Nat.mod_lt _ (by omega))]
      omega

theorem Json.indNested (P : Json → Prop)
    (hnull : P .null) (hbool : ∀ b, P (.bool b)) (hnum : ∀ n, P (.num n))
    (hstr : ∀ s, P (.str s))
    (harr : ∀ es, (∀ e ∈ es, P e) → P (.arr es))
    (hobj : ∀ fs, (∀ kv ∈ fs, P kv.2) → P (.obj fs)) :
    ∀ j, P j
  | .null => hnull
  | .bool b => hbool b
  | .num n => hnum n
  | .str s => hstr s
  | .arr es => harr es (fun e he =>
      Json.indNested P hnull hbool hnum hstr harr hobj e)
  | .obj fs => hobj fs (fun kv hkv =>
      Json.indNested P hnull hbool hnum hstr harr hobj kv.2)
termination_by j => sizeOf j
decreasing_by
  · have h1 := List.sizeOf_lt_of_mem he
    simp only [Json.arr.sizeOf_spec]
    omega
  · have h1 := List.sizeOf_lt_of_mem hkv
    obtain ⟨k, v⟩ := kv
    simp only [Json.obj.sizeOf_spec, Prod.mk.sizeOf_spec] at *
    omega

theorem encodeChars_head (j : Json) :
    ∃ c cs, j.encodeChars = c :: cs ∧ goodHead c := by
  cases j with
  | null => exact ⟨'n', _, rfl, by simp [goodHead]⟩
  | bool b =>
    cases b with
    | false => exact ⟨'f', _, rfl, by simp [goodHead]⟩
    | true => exact ⟨'t', _, rfl, by simp [goodHead]⟩
  | num n =>
    rw [Json.encodeChars]
    unfold intChars
    split
    · exact ⟨'-', _, rfl, by simp [goodHead]⟩
    · cases h : natDigits n.toNat with
      | nil => exact absurd h (natDigits_ne_nil _)
      | cons d ds =>
        have hd : d.isDigit := natDigits_digits n.toNat d (by rw [h]; simp)
        exact ⟨d, ds, rfl, by simp [goodHead, hd]⟩
  | str s => exact ⟨'"', _, rfl, by simp [goodHead]⟩
  | arr es => exact ⟨'[', _, rfl, by simp [goodHead]⟩
  | obj fs => exact ⟨lbrace, _, rfl, by simp [goodHead]⟩

theorem goodHead_ne (c : Char) (h : goodHead c) :
    c ≠ ']' ∧ c ≠ rbrace ∧ c ≠ ',' ∧ c ≠ ':' := by
  rcases h with rfl | rfl | rfl | rfl | rfl | hd | rfl | rfl
  case inr.inr.inr.inr.inr.inl =>
    refine ⟨?_, ?_, ?_, ?_⟩ <;> (intro he; subst he; revert hd; decide)
  all_goals refine ⟨by decide, by decide, by decide, by decide⟩

theorem parseVal_digit (f : Nat) (d : Char) (hd : d.isDigit) (cs : List Char) :
    parseVal (f + 1) (d :: cs) =
      some (Json.num (digitsVal (takeDigits (d :: cs)).1 : Int), (takeDigits (d :: cs)).2) := by
  have h1 : ¬ d = 'n' := by intro h; subst h; revert hd; decide
  have h2 : ¬ d = 't' := by intro h; subst h; revert hd; decide
  have h3 : ¬ d = 'f' := by intro h; subst h; revert hd; decide
  have h4 : ¬ d = '"' := by intro h; subst h; revert hd; decide
  have h5 : ¬ d = '-' := by intro h; subst h; revert hd; decide
  simp [parseVal, h1, h2, h3, h4, h5, hd]

theorem parseVal_minus (f : Nat) (cs : List Char) :
    parseVal (f + 1) ('-' :: cs) =
      (match takeDigits cs with
       | ([], _) => none
       | (ds, rest) => some (Json.num (-(digitsVal ds : Int)), rest)) := by
  simp [parseVal]

theorem jsonRT_null : JsonRT .null := by
  intro fuel rest hf hr
  cases fuel with
  | zero => simp [Json.needFuel] at hf
  | succ f => simp [Json.encodeChars, parseVal, expectChars]

theorem jsonRT_bool (b : Bool) : JsonRT (.bool b) := by
  intro fuel rest hf hr
  cases fuel with
  | zero => simp [Json.needFuel] at hf
  | succ f => cases b <;> simp [Json.encodeChars, parseVal, expectChars]

theorem jsonRT_num (n : Int) : JsonRT (.num n) := by
  intro fuel rest hf hr
  cases fuel with
  | zero => simp [Json.needFuel] at hf
  | succ f =>
    rw [Json.encodeChars]
    unfold intChars
    split
    · next hneg =>
      rw [List.cons_append, parseVal_minus]
      rw [takeDigits_append _ _ (natDigits_digits _) hr]
      cases h : natDigits (-n).toNat with
      | nil => exact absurd h (natDigits_ne_nil _)
      | cons d ds =>
        have hval : -((digitsVal (d :: ds) : Int)) = n := by
          rw [← h, digitsVal_natDigits]
          omega
        simp [hval]
    · next hpos =>
      cases h : natDigits n.toNat with
      | nil => exact absurd h (natDigits_ne_nil _)
      | cons d ds =>
        rw [List.cons_append,
          parseVal_digit f d (natDigits_digits n.toNat d (by rw [h]; simp)) (ds ++ rest)]
        rw [← List.cons_append, ← h, takeDigits_append _ _ (natDigits_digits _) hr]
        have hval : ((digitsVal (natDigits n.toNat) : Int)) = n := by
          rw [digitsVal_natDigits]
          omega
        simp [hval]

theorem jsonRT_str (s : String) : JsonRT (.str s) := by
  intro fuel rest hf hr
  cases fuel with
  | zero => simp [Json.needFuel] at hf
  | succ f =>
    rw [Json.encodeChars]
    simp only [List.cons_append, List.append_assoc, List.singleton_append]
    simp only [parseVal]
    norm_num
    rw [parseStringBody_escape]
    rfl

theorem parseArrElems_encode (es : List Json) (hes : ∀ e ∈ es, JsonRT e) :
    ∀ fuel rest, Json.needFuelArr es ≤ fuel → startsWithDigit rest = false →
      parseArrElems fuel (Json.encodeArrChars es ++ rest) = some (es, rest) := by
  induction es with
  | nil =>
    intro fuel rest hf hr
    cases fuel with
    | zero => simp [Json.needFuelArr] at hf
    | succ f => simp [Json.encodeArrChars, parseArrElems]
  | cons e es2 ih =>
    intro fuel rest hf hr
    cases fuel with
    | zero => simp [Json.needFuelArr] at hf
    | succ f =>
      have hfe : Json.needFuel e ≤ f := by
        simp only [Json.needFuelArr] at hf
        omega
      have hfes : Json.needFuelArr es2 ≤ f := by
        simp only [Json.needFuelArr] at hf
        omega
      obtain ⟨c, cs, hc, hgood⟩ := encodeChars_head e
      obtain ⟨hne1, _, _, _⟩ := goodHead_ne c hgood
      cases es2 with
      | nil =>
        rw [show Json.encodeArrChars [e] = e.encodeChars ++ [']'] from by
          simp [Json.encodeArrChars]]
        rw [hc]
        simp only [List.cons_append, List.append_assoc, List.singleton_append,
          List.nil_append]
        simp only [parseArrElems, if_neg hne1]
        have hrt := hes e (by simp) f (']' :: rest) hfe rfl
        rw [hc] at hrt
        simp only [List.cons_append, List.append_assoc, List.singleton_append,
          List.nil_append] at hrt
        rw [hrt]
        simp
      | cons e2 es3 =>
        rw [show Json.encodeArrChars (e :: e2 :: es3) =
            e.encodeChars ++ ',' :: Json.encodeArrChars (e2 :: es3) from by
          simp [Json.encodeArrChars]]
        rw [hc]
        simp only [List.cons_append, List.append_assoc]
        simp only [parseArrElems, if_neg hne1]
        have hrt := hes e (by simp) f (',' :: (Json.encodeArrChars (e2 :: es3) ++ rest)) hfe rfl
        rw [hc] at hrt
        simp only [List.cons_append, List.append_assoc] at hrt
        rw [hrt]
        have hih := ih (fun x hx => hes x (by simp [hx])) f rest hfes hr
        simp [hih]

theorem parseObjFields_encode (fs : List (String × Json)) (hfs : ∀ kv ∈ fs, JsonRT kv.2) :
    ∀ fuel rest, Json.needFuelObj fs ≤ fuel → startsWithDigit rest = false →
      parseObjFields fuel (Json.encodeObjChars fs ++ rest) = some (fs, rest) := by
  induction fs with
  | nil =>
    intro fuel rest hf hr
    cases fuel with
    | zero => simp [Json.needFuelObj] at hf
    | succ f => simp [parseObjFields, Json.encodeObjChars, rbrace]
  | cons kv fs2 ih =>
    obtain ⟨k, v⟩ := kv
    intro fuel rest hf hr
    cases fuel with
    | zero => simp [Json.needFuelObj] at hf
    | succ f =>
      have hfv : Json.needFuel v ≤ f := by
        simp only [Json.needFuelObj] at hf
        omega
      have hffs : Json.needFuelObj fs2 ≤ f := by
        simp only [Json.needFuelObj] at hf
        omega
      cases fs2 with
      | nil =>
        rw [show Json.encodeObjChars [(k, v)] =
            '"' :: (escapeChars k.data ++ '"' :: ':' :: (v.encodeChars ++ [rbrace])) from by
          simp [Json.encodeObjChars]]
        simp only [List.cons_append, List.append_assoc, List.singleton_append,
          List.nil_append]
        simp only [parseObjFields]
        rw [if_pos trivial]
        rw [parseStringBody_escape]
        have hrt := hfs (k, v) (by simp) f (rbrace :: rest) hfv rfl
        simp only [rbrace] at hrt
        simp [hrt, rbrace]
      | cons kv2 fs3 =>
        rw [show Json.encodeObjChars ((k, v) :: kv2 :: fs3) =
            '"' :: (escapeChars k.data ++ '"' :: ':' :: (v.encodeChars
              ++ ',' :: Json.encodeObjChars (kv2 :: fs3))) from by
          simp [Json.encodeObjChars]]
        simp only [List.cons_append, List.append_assoc, List.singleton_append,
          List.nil_append]
        simp only [parseObjFields]
        rw [if_pos trivial]
        rw [parseStringBody_escape]
        have hrt := hfs (k, v) (by simp) f
          (',' :: (Json.encodeObjChars (kv2 :: fs3) ++ rest)) hfv rfl
        simp only at hrt
        have hih := ih (fun x hx => hfs x (by simp [hx])) f rest hffs hr
        simp [hrt, hih, rbrace]

theorem jsonRT_all : ∀ j, JsonRT j := by
  refine Json.indNested JsonRT jsonRT_null jsonRT_bool jsonRT_num jsonRT_str ?_ ?_
  · intro es h fuel rest hf hr
    cases fuel with
    | zero => simp [Json.needFuel] at hf
    | succ f =>
      rw [Json.encodeChars, List.cons_append]
      simp only [parseVal]
      norm_num
      rw [parseArrElems_encode es h f rest (by simp [Json.needFuel] at hf; omega) hr]
      simp
  · intro fs h fuel rest hf hr
    cases fuel with
    | zero => simp [Json.needFuel] at hf
    | succ f =>
      rw [Json.encodeChars, List.cons_append]
      simp only [parseVal]
      norm_num [lbrace]
      rw [parseObjFields_encode fs h f rest (by simp [Json.needFuel] at hf; omega) hr]
      simp

theorem needFuelArr_le_aux (es : List Json)
    (h : ∀ e ∈ es, Json.needFuel e ≤ e.encodeChars.length + 1) :
    Json.needFuelArr es ≤ (Json.encodeArrChars es).length + 1 := by
  induction es with
  | nil => simp [Json.needFuelArr, Json.encodeArrChars]
  | cons e es2 ih =>
    have he := h e (by simp)
    cases es2 with
    | nil =>
      rw [show Json.needFuelArr [e] = max (Json.needFuel e) 1 + 1 from by
        simp [Json.needFuelArr]]
      rw [show Json.encodeArrChars [e] = e.encodeChars ++ [']'] from by
        simp [Json.encodeArrChars]]
      simp only [List.length_append, List.length_singleton]
      have h1 : max (Json.needFuel e) 1 ≤ e.encodeChars.length + 1 :=
        max_le he (by omega)
      omega
    | cons e2 es3 =>
      have hih := ih (fun x hx => h x (by simp [hx]))
      rw [show Json.needFuelArr (e :: e2 :: es3) =
          max (Json.needFuel e) (Json.needFuelArr (e2 :: es3)) + 1 from rfl]
      rw [show Json.encodeArrChars (e :: e2 :: es3) =
          e.encodeChars ++ ',' :: Json.encodeArrChars (e2 :: es3) from by
        simp [Json.encodeArrChars]]
      simp only [List.length_append, List.length_cons]
      have h1 : max (Json.needFuel e) (Json.needFuelArr (e2 :: es3)) ≤
          e.encodeChars.length + (Json.encodeArrChars (e2 :: es3)).length + 1 :=
        max_le (by omega) (by omega)
      omega

theorem needFuelObj_le_aux (fs : List (String × Json))
    (h : ∀ kv ∈ fs, Json.needFuel kv.2 ≤ kv.2.encodeChars.length + 1) :
    Json.needFuelObj fs ≤ (Json.encodeObjChars fs).length + 1 := by
  induction fs with
  | nil => simp [Json.needFuelObj, Json.encodeObjChars]
  | cons kv fs2 ih =>
    obtain ⟨k, v⟩ := kv
    have he := h (k, v) (by simp)
    simp only at he
    cases fs2 with
    | nil =>
      rw [show Json.needFuelObj [(k, v)] = max (Json.needFuel v) 1 + 1 from by
        simp [Json.needFuelObj]]
      rw [show Json.encodeObjChars [(k, v)] =
          '"' :: (escapeChars k.data ++ '"' :: ':' :: (v.encodeChars ++ [rbrace])) from by
        simp [Json.encodeObjChars]]
      simp only [List.length_append, List.length_singleton, List.length_cons]
      have h1 : max (Json.needFuel v) 1 ≤ v.encodeChars.length + 1 :=
        max_le he (by omega)
      omega
    | cons kv2 fs3 =>
      have hih := ih (fun x hx => h x (by simp [hx]))
      rw [show Json.needFuelObj ((k, v) :: kv2 :: fs3) =
          max (Json.needFuel v) (Json.needFuelObj (kv2 :: fs3)) + 1 from rfl]
      rw [show Json.encodeObjChars ((k, v) :: kv2 :: fs3) =
          '"' :: (escapeChars k.data ++ '"' :: ':' :: (v.encodeChars
            ++ ',' :: Json.encodeObjChars (kv2 :: fs3))) from by
        simp [Json.encodeObjChars]]
      simp only [List.length_append, List.length_cons]
      have h1 : max (Json.needFuel v) (Json.needFuelObj (kv2 :: fs3)) ≤
          v.encodeChars.length + (Json.encodeObjChars (kv2 :: fs3)).length + 1 :=
        max_le (by omega) (by omega)
      omega

theorem needFuel_le : ∀ j : Json, Json.needFuel j ≤ j.encodeChars.length + 1 := by
  refine Json.indNested _ ?_ ?_ ?_ ?_ ?_ ?_
  · simp [Json.needFuel, Json.encodeChars]
  · intro b
    cases b <;> simp [Json.needFuel, Json.encodeChars]
  · intro n
    simp [Json.needFuel]
  · intro s
    simp [Json.needFuel]
  · intro es h
    rw [Json.needFuel, Json.encodeChars]
    have := needFuelArr_le_aux es h
    simp only [List.length_cons]
    omega
  · intro fs h
    rw [Json.needFuel, Json.encodeChars]
    have := needFuelObj_le_aux fs h
    simp only [List.length_cons]
    omega

/-! ## Sorted-map lemmas for the pipeline container -/

theorem mem_mapInsert (x : String × Node) (k : String) (v : Node)
    (l : List (String × Node)) (hx : x ∈ mapInsert k v l) : x = (k, v) ∨ x ∈ l := by
  induction l with
  | nil => simpa [mapInsert] using hx
  | cons y rest ih =>
    obtain ⟨k2, v2⟩ := y
    rw [mapInsert] at hx
    split_ifs at hx with h1 h2
    · simpa using hx
    · rcases List.mem_cons.mp hx with rfl | hmem
      · exact Or.inl rfl
      · exact Or.inr (by simp [hmem])
    · rcases List.mem_cons.mp hx with rfl | hmem
      · exact Or.inr (by simp)
      · rcases ih hmem with h | h
        · exact Or.inl h
        · exact Or.inr (by simp [h])

theorem pairwise_mapInsert (k : String) (v : Node) (l : List (String × Node))
    (h : l.Pairwise entLt) : (mapInsert k v l).Pairwise entLt := by
  induction l with
  | nil => simp [mapInsert]
  | cons y rest ih =>
    obtain ⟨k2, v2⟩ := y
    rw [List.pairwise_cons] at h
    obtain ⟨h1, h2⟩ := h
    rw [mapInsert]
    split_ifs with hlt heq
    · refine List.Pairwise.cons ?_ (List.Pairwise.cons h1 h2)
      intro x hx
      rcases List.mem_cons.mp hx with rfl | hx2
      · exact hlt
      · exact lt_trans hlt (h1 x hx2)
    · subst heq
      exact List.Pairwise.cons h1 h2
    · refine List.Pairwise.cons ?_ (ih h2)
      intro x hx
      rcases mem_mapInsert x k v rest hx with rfl | hx2
      · exact lt_of_le_of_ne (not_lt.mp hlt) (Ne.symm heq)
      · exact h1 x hx2

theorem lookup_mapInsert_self (k : String) (v : Node) (l : List (String × Node)) :
    (mapInsert k v l).lookup k = some v := by
  induction l with
  | nil => simp [mapInsert, List.lookup]
  | cons y rest ih =>
    obtain ⟨k2, v2⟩ := y
    rw [mapInsert]
    split_ifs with h1 h2
    · simp [List.lookup]
    · simp [List.lookup]
    · have hne : (k == k2) = false := by
        simp only [beq_eq_false_iff_ne, ne_eq]
        exact h2
      simp [List.lookup, hne, ih]

theorem lookup_mapInsert_ne (k : String) (v : Node) (l : List (String × Node))
    (k' : String) (h : k' ≠ k) :
    (mapInsert k v l).lookup k' = l.lookup k' := by
  have hbeq : (k' == k) = false := by
    simp only [beq_eq_false_iff_ne, ne_eq]
    exact h
  induction l with
  | nil => simp [mapInsert, List.lookup, hbeq]
  | cons y rest ih =>
    obtain ⟨k2, v2⟩ := y
    rw [mapInsert]
    split_ifs with h1 h2
    · simp [List.lookup, hbeq]
    · subst h2
      simp [List.lookup, hbeq]
    · by_cases hk2 : k' == k2
      · simp [List.lookup, hk2]
      · simp only [List.lookup, hk2]
        exact ih

theorem mapInsert_fresh_perm (k : String) (v : Node) (l : List (String × Node))
    (h : l.lookup k = none) : (mapInsert k v l).Perm ((k, v) :: l) := by
  induction l with
  | nil => simp [mapInsert]
  | cons y rest ih =>
    obtain ⟨k2, v2⟩ := y
    rw [List.lookup] at h
    by_cases hk : k == k2
    · simp [hk] at h
    · simp only [hk] at h
      rw [mapInsert]
      split_ifs with h1 h2
      · exact List.Perm.refl _
      · exact absurd (beq_iff_eq.mpr h2) hk
      · exact ((ih h).cons (k2, v2)).trans (List.Perm.swap (k, v) (k2, v2) rest)

theorem mapInsert_append (k : String) (v : Node) (acc : List (String × Node))
    (h : ∀ x ∈ acc, x.1 < k) : mapInsert k v acc = acc ++ [(k, v)] := by
  induction acc with
  | nil => rfl
  | cons y rest ih =>
    obtain ⟨k2, v2⟩ := y
    have hk2 : k2 < k := h (k2, v2) (by simp)
    rw [mapInsert, if_neg (lt_asymm hk2), if_neg (ne_of_gt hk2)]
    rw [ih (fun x hx => h x (by simp [hx]))]
    simp

theorem lookup_none_of_keys_ne (k : String) (l : List (String × Node))
    (h : ∀ x ∈ l, x.1 ≠ k) : l.lookup k = none := by
  induction l with
  | nil => rfl
  | cons y rest ih =>
    obtain ⟨k2, v2⟩ := y
    have : (k == k2) = false := by
      simp only [beq_eq_false_iff_ne, ne_eq]
      exact fun he => h (k2, v2) (by simp) he.symm
    simp only [List.lookup, this]
    exact ih (fun x hx => h x (by simp [hx]))

theorem sorted_entries_ext (l l' : List (String × Node))
    (hl : l.Pairwise entLt) (hl' : l'.Pairwise entLt)
    (h : ∀ k, l.lookup k = l'.lookup k) : l = l' := by
  induction l generalizing l' with
  | nil =>
    cases l' with
    | nil => rfl
    | cons y rest =>
      obtain ⟨k2, v2⟩ := y
      have := h k2
      simp [List.lookup] at this
  | cons y rest ih =>
    obtain ⟨k, v⟩ := y
    cases l' with
    | nil =>
      have := h k
      simp [List.lookup] at this
    | cons y' rest' =>
      obtain ⟨k', v'⟩ := y'
      rw [List.pairwise_cons] at hl hl'
      obtain ⟨h1, h2⟩ := hl
      obtain ⟨h1', h2'⟩ := hl'
      have hkk : k = k' := by
        by_contra hne
        rcases lt_or_gt_of_ne hne with hlt | hgt
        · have hk := h k
          have hnone : rest'.lookup k = none :=
            lookup_none_of_keys_ne k rest'
              (fun x hx => ne_of_gt (lt_trans hlt (h1' x hx)))
          rw [List.lookup, List.lookup] at hk
          simp only [beq_self_eq_true] at hk
          have : (k == k') = false := by
            simp only [beq_eq_false_iff_ne, ne_eq]
            exact hne
          rw [this] at hk
          rw [hnone] at hk
          simp at hk
        · have hk := h k'
          have hnone : rest.lookup k' = none :=
            lookup_none_of_keys_ne k' rest
              (fun x hx => ne_of_gt (lt_trans hgt (h1 x hx)))
          rw [List.lookup, List.lookup] at hk
          simp only [beq_self_eq_true] at hk
          have : (k' == k) = false := by
            simp only [beq_eq_false_iff_ne, ne_eq]
            exact fun he => hne he.symm
          rw [this] at hk
          rw [hnone] at hk
          simp at hk
      subst hkk
      have hvv : v = v' := by
        have hk := h k
        simp [List.lookup] at hk
        exact hk
      subst hvv
      have htail : ∀ k2, rest.lookup k2 = rest'.lookup k2 := by
        intro k2
        by_cases hk2 : k2 = k
        · subst hk2
          rw [lookup_none_of_keys_ne k2 rest (fun x hx => ne_of_gt (h1 x hx)),
            lookup_none_of_keys_ne k2 rest' (fun x hx => ne_of_gt (h1' x hx))]
        · have hk := h k2
          have hbeq : (k2 == k) = false := by
            simp only [beq_eq_false_iff_ne, ne_eq]
            exact hk2
          rw [List.lookup, List.lookup, hbeq] at hk
          exact hk
      rw [ih rest' h2 h2' htail]

theorem build_nodes_pairwise (ns : List Node) (acc : Pipeline)
    (hacc : acc.nodes.Pairwise entLt) :
    (ns.foldl Pipeline.add_node acc).nodes.Pairwise entLt := by
  induction ns generalizing acc with
  | nil => exact hacc
  | cons n rest ih =>
    rw [List.foldl_cons]
    exact ih ⟨mapInsert n.id n acc.nodes⟩ (pairwise_mapInsert n.id n acc.nodes hacc)

theorem build_keyed_by_id (ns : List Node) (acc : Pipeline)
    (hacc : ∀ kv ∈ acc.nodes, kv.2.id = kv.1) :
    ∀ kv ∈ (ns.foldl Pipeline.add_node acc).nodes, kv.2.id = kv.1 := by
  induction ns generalizing acc with
  | nil => exact hacc
  | cons n rest ih =>
    rw [List.foldl_cons]
    refine ih ⟨mapInsert n.id n acc.nodes⟩ ?_
    intro kv hkv
    rcases mem_mapInsert kv n.id n acc.nodes hkv with rfl | hmem
    · rfl
    · exact hacc kv hmem

theorem node_by_id_foldl (ns : List Node) (p : Pipeline) (k : String) :
    (ns.foldl Pipeline.add_node p).node_by_id k =
      (match ns.reverse.find? (fun n => n.id == k) with
       | some n => some n
       | none => p.node_by_id k) := by
  induction ns generalizing p with
  | nil => simp
  | cons n rest ih =>
    rw [List.foldl_cons, ih]
    rw [List.reverse_cons, List.find?_append]
    cases h : rest.reverse.find? (fun m => m.id == k) with
    | some m => simp [h]
    | none =>
      simp only [h, Option.none_or]
      by_cases hk : n.id = k
      · subst hk
        have hself : (p.add_node n).node_by_id n.id = some n := by
          show (mapInsert n.id n p.nodes).lookup n.id = some n
          exact lookup_mapInsert_self _ _ _
        simp [List.find?, hself]
      · have hbeq : (n.id == k) = false := by
          simp only [beq_eq_false_iff_ne, ne_eq]
          exact hk
        have hne : (p.add_node n).node_by_id k = p.node_by_id k := by
          show (mapInsert n.id n p.nodes).lookup k = p.nodes.lookup k
          exact lookup_mapInsert_ne n.id n p.nodes k (fun he => hk he.symm)
        simp [List.find?, hbeq, hne]

theorem build_node_by_id_iff (ns : List Node)
    (hinj : ∀ x ∈ ns, ∀ y ∈ ns, x.id = y.id → x = y) (k : String) (n : Node) :
    (Pipeline.build ns).node_by_id k = some n ↔ (n ∈ ns ∧ n.id = k) := by
  rw [Pipeline.build, node_by_id_foldl]
  constructor
  · intro h
    cases hf : ns.reverse.find? (fun m => m.id == k) with
    | none =>
      rw [hf] at h
      simp [Pipeline.new, Pipeline.node_by_id, List.lookup] at h
    | some m =>
      rw [hf] at h
      simp only [Option.some.injEq] at h
      obtain rfl : m = n := h
      have hmem : m ∈ ns.reverse := List.mem_of_find?_eq_some hf
      have hid := List.find?_some hf
      simp only [beq_iff_eq] at hid
      exact ⟨List.mem_reverse.mp hmem, hid⟩
  · rintro ⟨hmem, hid⟩
    subst hid
    cases hf : ns.reverse.find? (fun m => m.id == n.id) with
    | none =>
      have := List.find?_eq_none.mp hf n (List.mem_reverse.mpr hmem)
      simp at this
    | some m =>
      have hmmem : m ∈ ns.reverse := List.mem_of_find?_eq_some hf
      have hmid := List.find?_some hf
      simp only [beq_iff_eq] at hmid
      have : m = n :=
        hinj m (List.mem_reverse.mp hmmem) n hmem hmid
      simp [hf, this]

theorem build_perm_eq (ns ns' : List Node) (hperm : ns.Perm ns')
    (hinj : ∀ x ∈ ns, ∀ y ∈ ns, x.id = y.id → x = y) :
    Pipeline.build ns = Pipeline.build ns' := by
  have hinj' : ∀ x ∈ ns', ∀ y ∈ ns', x.id = y.id → x = y := fun x hx y hy =>
    hinj x (hperm.mem_iff.mpr hx) y (hperm.mem_iff.mpr hy)
  have hs : (Pipeline.build ns).nodes.Pairwise entLt :=
    build_nodes_pairwise ns Pipeline.new (by simp [Pipeline.new])
  have hs' : (Pipeline.build ns').nodes.Pairwise entLt :=
    build_nodes_pairwise ns' Pipeline.new (by simp [Pipeline.new])
  have hlk : ∀ k, (Pipeline.build ns).nodes.lookup k = (Pipeline.build ns').nodes.lookup k := by
    intro k
    cases h : (Pipeline.build ns).nodes.lookup k with
    | some n =>
      have := (build_node_by_id_iff ns hinj k n).mp h
      exact ((build_node_by_id_iff ns' hinj' k n).mpr
        ⟨hperm.mem_iff.mp this.1, this.2⟩).symm
    | none =>
      cases h' : (Pipeline.build ns').nodes.lookup k with
      | none => rfl
      | some m =>
        have := (build_node_by_id_iff ns' hinj' k m).mp h'
        have hm := (build_node_by_id_iff ns hinj k m).mpr
          ⟨hperm.mem_iff.mpr this.1, this.2⟩
        rw [show (Pipeline.build ns).node_by_id k =
          (Pipeline.build ns).nodes.lookup k from rfl, h] at hm
        exact absurd hm (by simp)
  have := sorted_entries_ext (Pipeline.build ns).nodes (Pipeline.build ns').nodes hs hs' hlk
  cases hb : Pipeline.build ns
  cases hb' : Pipeline.build ns'
  rw [hb, hb'] at this
  simpa using this

theorem build_values_perm (ns : List Node) (acc : Pipeline)
    (hfresh : ∀ n ∈ ns, acc.node_by_id n.id = none)
    (hnodup : (ns.map Node.id).Nodup) :
    (ns.foldl Pipeline.add_node acc).nodes.Perm
      (acc.nodes ++ ns.map (fun n => (n.id, n))) := by
  induction ns generalizing acc with
  | nil => simp
  | cons n rest ih =>
    rw [List.foldl_cons]
    have hins : (Pipeline.add_node acc n).nodes.Perm ((n.id, n) :: acc.nodes) :=
      mapInsert_fresh_perm n.id n acc.nodes (hfresh n (by simp))
    have hfresh' : ∀ m ∈ rest, (Pipeline.add_node acc n).node_by_id m.id = none := by
      intro m hm
      have hne : m.id ≠ n.id := by
        intro he
        rw [List.map_cons, List.nodup_cons] at hnodup
        exact hnodup.1 (he ▸ List.mem_map_of_mem Node.id hm)
      show (mapInsert n.id n acc.nodes).lookup m.id = none
      rw [lookup_mapInsert_ne n.id n acc.nodes m.id hne]
      exact hfresh m (by simp [hm])
    have hrec := ih (Pipeline.add_node acc n) hfresh'
      (by rw [List.map_cons, List.nodup_cons] at hnodup; exact hnodup.2)
    refine hrec.trans ?_
    refine (List.Perm.append_right _ hins).trans ?_
    rw [List.map_cons]
    exact (List.perm_middle).symm.trans (by simp [List.perm_middle])

/-! ## Validation-pass lemmas -/

theorem checkSinks_ok_iff (p : Pipeline) (sinks : List SinkPad) :
    checkSinks p sinks = .ok () ↔ ∀ s ∈ sinks, (p.node_by_id s.node).isSome := by
  induction sinks with
  | nil => simp [checkSinks]
  | cons s rest ih =>
    rw [checkSinks]
    cases h : p.node_by_id s.node with
    | some n => simp [h, ih]
    | none => simp [h]

theorem checkSinks_error (p : Pipeline) (sinks : List SinkPad) (e : String)
    (h : checkSinks p sinks = .error e) :
    ∃ s ∈ sinks, p.node_by_id s.node = none ∧ e = dstNotFoundMsg s.node := by
  induction sinks with
  | nil => simp [checkSinks] at h
  | cons s rest ih =>
    rw [checkSinks] at h
    cases hs : p.node_by_id s.node with
    | some n =>
      rw [hs] at h
      obtain ⟨s2, hmem, hn, he⟩ := ih h
      exact ⟨s2, by simp [hmem], hn, he⟩
    | none =>
      rw [hs] at h
      simp only [Except.error.injEq] at h
      exact ⟨s, by simp, hs, h.symm⟩

theorem checkPads_ok_iff (p : Pipeline) (pads : List SourcePad) :
    checkPads p pads = .ok () ↔
      ∀ sp ∈ pads, ∀ s ∈ sp.sinks, (p.node_by_id s.node).isSome := by
  induction pads with
  | nil => simp [checkPads]
  | cons sp rest ih =>
    rw [checkPads]
    cases h : checkSinks p sp.sinks with
    | ok u =>
      obtain ⟨⟩ := u
      have hhd := (checkSinks_ok_iff p sp.sinks).mp h
      rw [ih]
      constructor
      · intro hall sp2 hmem s hs
        rcases List.mem_cons.mp hmem with rfl | hmem2
        · exact hhd s hs
        · exact hall sp2 hmem2 s hs
      · intro hall sp2 hmem s hs
        exact hall sp2 (by simp [hmem]) s hs
    | error e =>
      simp only []
      constructor
      · intro hh
        exact absurd hh (by simp)
      · intro hh
        have : checkSinks p sp.sinks = .ok () := by
          rw [checkSinks_ok_iff]
          exact hh sp (by simp)
        rw [this] at h
        cases h

theorem checkPads_error (p : Pipeline) (pads : List SourcePad) (e : String)
    (h : checkPads p pads = .error e) :
    ∃ sp ∈ pads, ∃ s ∈ sp.sinks, p.node_by_id s.node = none ∧
      e = dstNotFoundMsg s.node := by
  induction pads with
  | nil => simp [checkPads] at h
  | cons sp rest ih =>
    rw [checkPads] at h
    cases hs : checkSinks p sp.sinks with
    | ok u =>
      obtain ⟨⟩ := u
      rw [hs] at h
      obtain ⟨sp2, hmem, hrest⟩ := ih h
      exact ⟨sp2, by simp [hmem], hrest⟩
    | error e2 =>
      rw [hs] at h
      simp only [Except.error.injEq] at h
      subst h
      obtain ⟨s, hmem, hn, he⟩ := checkSinks_error p sp.sinks e2 hs
      exact ⟨sp, by simp, s, hmem, hn, he⟩

theorem checkNodes_ok_iff (p : Pipeline) (l : List Node) :
    checkNodes p l = .ok () ↔
      ∀ n ∈ l, ∀ sp ∈ n.source_pads.all, ∀ s ∈ sp.sinks,
        (p.node_by_id s.node).isSome := by
  induction l with
  | nil => simp [checkNodes]
  | cons n rest ih =>
    rw [checkNodes]
    cases h : checkPads p n.source_pads.all with
    | ok u =>
      obtain ⟨⟩ := u
      have hhd := (checkPads_ok_iff p n.source_pads.all).mp h
      rw [ih]
      constructor
      · intro hall n2 hmem sp hsp s hs
        rcases List.mem_cons.mp hmem with rfl | hmem2
        · exact hhd sp hsp s hs
        · exact hall n2 hmem2 sp hsp s hs
      · intro hall n2 hmem sp hsp s hs
        exact hall n2 (by simp [hmem]) sp hsp s hs
    | error e =>
      simp only []
      constructor
      · intro hh
        exact absurd hh (by simp)
      · intro hh
        have : checkPads p n.source_pads.all = .ok () := by
          rw [checkPads_ok_iff]
          exact hh n (by simp)
        rw [this] at h
        cases h

theorem checkNodes_error (p : Pipeline) (l : List Node) (e : String)
    (h : checkNodes p l = .error e) :
    ∃ n ∈ l, ∃ sp ∈ n.source_pads.all, ∃ s ∈ sp.sinks,
      p.node_by_id s.node = none ∧ e = dstNotFoundMsg s.node := by
  induction l with
  | nil => simp [checkNodes] at h
  | cons n rest ih =>
    rw [checkNodes] at h
    cases hs : checkPads p n.source_pads.all with
    | ok u =>
      obtain ⟨⟩ := u
      rw [hs] at h
      obtain ⟨n2, hmem, hrest⟩ := ih h
      exact ⟨n2, by simp [hmem], hrest⟩
    | error e2 =>
      rw [hs] at h
      simp only [Except.error.injEq] at h
      subst h
      obtain ⟨sp, hmem, s, hsmem, hn, he⟩ := checkPads_error p n.source_pads.all e2 hs
      exact ⟨n, by simp, sp, hmem, s, hsmem, hn, he⟩

theorem refsValid_iff (p : Pipeline) :
    p.refsValid = true ↔
      ∀ n ∈ p.nodesList, ∀ sp ∈ n.source_pads.all, ∀ s ∈ sp.sinks,
        (p.node_by_id s.node).isSome := by
  rw [Pipeline.refsValid, List.all_eq_true]
  constructor
  · intro h n hn sp hsp s hs
    exact h s.node (by
      rw [Pipeline.allSinkNodes, List.mem_flatMap]
      exact ⟨n, hn, by
        rw [Node.sinkNodes, List.mem_flatMap]
        exact ⟨sp, hsp, List.mem_map_of_mem _ hs⟩⟩)
  · intro h m hm
    rw [Pipeline.allSinkNodes, List.mem_flatMap] at hm
    obtain ⟨n, hn, hm2⟩ := hm
    rw [Node.sinkNodes, List.mem_flatMap] at hm2
    obtain ⟨sp, hsp, hm3⟩ := hm2
    rw [List.mem_map] at hm3
    obtain ⟨s, hs, rfl⟩ := hm3
    exact h n hn sp hsp s hs

theorem deserializeNodes_ok_iff (ns : List Node) :
    Pipeline.deserializeNodes ns = .ok (Pipeline.build ns) ↔
      (Pipeline.build ns).refsValid = true := by
  rw [Pipeline.deserializeNodes]
  cases h : checkNodes (Pipeline.build ns) (Pipeline.build ns).nodesList with
  | ok u =>
    obtain ⟨⟩ := u
    have hok := (checkNodes_ok_iff _ _).mp h
    exact ⟨fun _ => (refsValid_iff _).mpr hok, fun _ => rfl⟩
  | error e =>
    simp only []
    constructor
    · intro hh
      cases hh
    · intro hh
      have : checkNodes (Pipeline.build ns) (Pipeline.build ns).nodesList = .ok () := by
        rw [checkNodes_ok_iff]
        exact (refsValid_iff _).mp hh
      rw [this] at h
      cases h

/-- The JSON codec round trip: parsing a printed value recovers it. -/
theorem Json.parse_encode (j : Json) : Json.parse (Json.encode j) = .ok j := by
  have hrt := jsonRT_all j (j.encodeChars.length + 1) [] (needFuel_le j) rfl
  rw [List.append_nil] at hrt
  show (match parseVal (j.encodeChars.length + 1) j.encodeChars with
    | some (j, []) => Except.ok j
    | some (_, _ :: _) => Except.error "trailing characters"
    | none => Except.error "invalid JSON") = Except.ok j
  rw [hrt]

theorem keysSorted_iff_pairwise (l : List (String × Node)) :
    keysSorted l = true ↔ l.Pairwise entLt := by
  induction l with
  | nil => simp [keysSorted]
  | cons x rest ih =>
    cases rest with
    | nil => simp [keysSorted]
    | cons y rest2 =>
      obtain ⟨k1, v1⟩ := x
      obtain ⟨k2, v2⟩ := y
      rw [keysSorted, Bool.and_eq_true, decide_eq_true_eq, ih]
      constructor
      · rintro ⟨hlt, hp⟩
        refine List.Pairwise.cons ?_ hp
        intro a ha
        rcases List.mem_cons.mp ha with rfl | ha2
        · exact hlt
        · exact lt_trans hlt ((List.pairwise_cons.mp hp).1 a ha2)
      · intro hp
        rw [List.pairwise_cons] at hp
        exact ⟨hp.1 (k2, v2) (by simp), hp.2⟩

theorem wf_unpack (p : Pipeline) (h : p.wf = true) :
    p.nodes.Pairwise entLt ∧ ∀ kv ∈ p.nodes, kv.2.id = kv.1 := by
  rw [Pipeline.wf, Bool.and_eq_true, List.all_eq_true] at h
  refine ⟨(keysSorted_iff_pairwise p.nodes).mp h.1, fun kv hkv => ?_⟩
  have := h.2 kv hkv
  simpa using this

theorem build_from_sorted (l acc : List (String × Node))
    (hs : (acc ++ l).Pairwise entLt) (hid : ∀ kv ∈ l, kv.2.id = kv.1) :
    List.foldl Pipeline.add_node ⟨acc⟩ (l.map Prod.snd) = ⟨acc ++ l⟩ := by
  induction l generalizing acc with
  | nil => simp
  | cons kv rest ih =>
    obtain ⟨k, v⟩ := kv
    rw [List.map_cons, List.foldl_cons]
    have hvid : v.id = k := hid (k, v) (by simp)
    have hlt : ∀ x ∈ acc, x.1 < k := by
      intro x hx
      exact (List.pairwise_append.mp hs).2.2 x hx (k, v) (by simp)
    show List.foldl Pipeline.add_node ⟨mapInsert v.id v acc⟩ (rest.map Prod.snd) = _
    rw [hvid, mapInsert_append k v acc hlt]
    have hs2 : ((acc ++ [(k, v)]) ++ rest).Pairwise entLt := by
      rw [List.append_assoc]
      simpa using hs
    rw [ih (acc ++ [(k, v)]) hs2 (fun kv2 h2 => hid kv2 (by simp [h2]))]
    simp

/-! ## Number printing: `toString` on `Nat` meets `parseUsize` -/

theorem digitChar_core (m : Nat) (h : m < 10) : Nat.digitChar m = digitChar m := by
  interval_cases m <;> decide

theorem toDigitsCore_eq (n : Nat) : ∀ fuel ds, n < fuel →
    Nat.toDigitsCore 10 fuel n ds = natDigits n ++ ds := by
  induction n using Nat.strong_induction_on with
  | _ n ih =>
    intro fuel ds hf
    cases fuel with
    | zero => omega
    | succ f =>
      show (if n / 10 = 0 then Nat.digitChar (n % 10) :: ds
            else Nat.toDigitsCore 10 f (n / 10) (Nat.digitChar (n % 10) :: ds)) =
          natDigits n ++ ds
      by_cases hz : n / 10 = 0
      · have hn : n < 10 := by omega
        rw [if_pos hz, natDigits, dif_pos hn, Nat.mod_eq_of_lt hn, digitChar_core n hn]
        rfl
      · have hn : ¬ n < 10 := by omega
        rw [if_neg hz,
          ih (n / 10) (Nat.div_lt_self (by omega) (by omega)) f
            (Nat.digitChar (n % 10) :: ds) (by omega),
          digitChar_core (n % 10) (Nat.mod_lt _ (by omega))]
        conv_rhs => rw [natDigits]
        rw [dif_neg hn]
        simp

theorem toString_nat_eq (n : Nat) : toString n = String.mk (natDigits n) := by
  show Nat.repr n = String.mk (natDigits n)
  rw [Nat.repr, Nat.toDigits, toDigitsCore_eq n (n + 1) [] (Nat.lt_succ_self n),
    List.append_nil]
  rfl

theorem parseUsize_mk (cs : List Char) (h1 : cs ≠ []) (h2 : ∀ c ∈ cs, c.isDigit)
    (h3 : ∀ c ∈ cs, c ≠ '+') :
    parseUsize (String.mk cs) = some (digitsVal cs) := by
  rw [parseUsize]
  dsimp only
  have hmatch : ∀ l : List Char, (∀ c ∈ l, c ≠ '+') →
      (match l with | '+' :: rest => rest | cs => cs) = l := by
    intro l hl
    split
    · exact absurd rfl (hl _ (List.mem_cons_self _ _))
    · rfl
  rw [hmatch cs h3, if_pos ⟨h1, List.all_eq_true.mpr h2⟩]

theorem isDigit_ne (c d : Char) (hc : c.isDigit = true) (hd : d.isDigit = false) :
    c ≠ d := by
  intro h
  rw [h, hd] at hc
  cases hc

theorem natDigits_ne_plus (n : Nat) : ∀ c ∈ natDigits n, c ≠ '+' :=
  fun c hc => isDigit_ne c '+' (natDigits_digits n c hc) (by decide)

theorem parseUsize_toString (n : Nat) : parseUsize (toString n) = some n := by
  rw [toString_nat_eq,
    parseUsize_mk (natDigits n) (natDigits_ne_nil n) (natDigits_digits n)
      (natDigits_ne_plus n),
    digitsVal_natDigits]

/-! ## `splitChar` on separator-free token concatenations -/

theorem splitCharAux_ne_nil (c : Char) (l : List Char) : splitCharAux c l ≠ [] := by
  cases l with
  | nil => simp [splitCharAux]
  | cons d rest =>
    rw [splitCharAux]
    rcases splitCharAux c rest with _ | ⟨x, xs⟩ <;> by_cases hd : d = c <;> simp [hd]

theorem splitCharAux_no_sep (c : Char) (l : List Char) (h : ∀ d ∈ l, d ≠ c) :
    splitCharAux c l = [l] := by
  induction l with
  | nil => rfl
  | cons d rest ih =>
    have hd := h d (List.mem_cons_self d rest)
    rw [splitCharAux, ih (fun x hx => h x (List.mem_cons_of_mem d hx))]
    simp [hd]

theorem splitCharAux_append (c : Char) (l1 l2 : List Char) (h : ∀ d ∈ l1, d ≠ c) :
    splitCharAux c (l1 ++ c :: l2) = l1 :: splitCharAux c l2 := by
  induction l1 with
  | nil =>
    rw [List.nil_append, splitCharAux]
    cases h2 : splitCharAux c l2 with
    | nil => exact absurd h2 (splitCharAux_ne_nil c l2)
    | cons x xs => simp
  | cons d rest ih =>
    have hd := h d (List.mem_cons_self d rest)
    rw [List.cons_append, splitCharAux, ih (fun x hx => h x (List.mem_cons_of_mem d hx))]
    simp [hd]

theorem str_data_append (a b : String) : (a ++ b).data = a.data ++ b.data := rfl

theorem natDigits_ne_of (n : Nat) (d : Char) (hd : d.isDigit = false) :
    ∀ c ∈ natDigits n, c ≠ d :=
  fun c hc => isDigit_ne c d (natDigits_digits n c hc) hd

theorem splitChar_four (a b c d : Nat) :
    splitChar ':' (toString a ++ ":" ++ toString b ++ ":" ++ toString c ++ ":" ++ toString d) =
      [toString a, toString b, toString c, toString d] := by
  have hcolon : (":" : String).data = [':'] := rfl
  have hdata : (toString a ++ ":" ++ toString b ++ ":" ++ toString c ++ ":" ++ toString d).data
      = natDigits a ++ ':' :: (natDigits b ++ ':' :: (natDigits c ++ ':' :: natDigits d)) := by
    rw [toString_nat_eq a, toString_nat_eq b, toString_nat_eq c, toString_nat_eq d]
    simp [str_data_append, hcolon]
  rw [splitChar, hdata,
    splitCharAux_append ':' _ _ (natDigits_ne_of a ':' (by decide)),
    splitCharAux_append ':' _ _ (natDigits_ne_of b ':' (by decide)),
    splitCharAux_append ':' _ _ (natDigits_ne_of c ':' (by decide)),
    splitCharAux_no_sep ':' _ (natDigits_ne_of d ':' (by decide))]
  simp [toString_nat_eq]

theorem splitChar_two (a b : Nat) :
    splitChar 'x' (toString a ++ "x" ++ toString b) = [toString a, toString b] := by
  have hx : ("x" : String).data = ['x'] := rfl
  have hdata : (toString a ++ "x" ++ toString b).data
      = natDigits a ++ 'x' :: natDigits b := by
    rw [toString_nat_eq a, toString_nat_eq b]
    simp [str_data_append, hx]
  rw [splitChar, hdata,
    splitCharAux_append 'x' _ _ (natDigits_ne_of a 'x' (by decide)),
    splitCharAux_no_sep 'x' _ (natDigits_ne_of b 'x' (by decide))]
  simp [toString_nat_eq]

theorem crop_from_str_serialize (c : Crop) : Crop.from_str c.serializeStr = .ok c := by
  have hred : Crop.from_str c.serializeStr =
      (match parseUsize (toString c.left), parseUsize (toString c.right),
             parseUsize (toString c.top), parseUsize (toString c.bottom) with
       | some lv, some rv, some tv, some bv =>
         Except.ok { top := tv, bottom := bv, left := lv, right := rv }
       | _, _, _, _ =>
         Except.error ("Failed to parse crop region string: " ++ c.serializeStr)) := by
    rw [Crop.from_str, Crop.serializeStr, splitChar_four]
  rw [hred, parseUsize_toString, parseUsize_toString, parseUsize_toString,
    parseUsize_toString]

theorem resolution_from_str_serialize (r : Resolution) :
    Resolution.from_str r.serializeStr = .ok r := by
  have hred : Resolution.from_str r.serializeStr =
      (match parseUsize (toString r.width), parseUsize (toString r.height) with
       | some wv, some hv => Except.ok { width := wv, height := hv }
       | _, _ => Except.error ("Bad resolution format: " ++ r.serializeStr)) := by
    rw [Resolution.from_str, Resolution.serializeStr, splitChar_two]
  rw [hred, parseUsize_toString, parseUsize_toString]

theorem rotateDirection_round (d : RotateDirection) :
    RotateDirection.fromWire d.toWire = .ok d := by
  cases d <;> rfl

theorem flipDirection_round (d : FlipDirection) :
    FlipDirection.fromWire d.toWire = .ok d := by
  cases d <;> rfl

/-! ## Wire-token and pad-set round trips -/

theorem splitFirstDot_append (a b : List Char) (h : ∀ c ∈ a, c ≠ '.') :
    splitFirstDot (a ++ '.' :: b) = some (a, b) := by
  induction a with
  | nil => simp [splitFirstDot]
  | cons c rest ih =>
    have hc := h c (List.mem_cons_self c rest)
    rw [List.cons_append, splitFirstDot, if_neg hc,
      ih (fun x hx => h x (List.mem_cons_of_mem c hx))]
    rfl

theorem sinkPad_from_str_toWire (p : SinkPad) (h : p.tokenWf = true) :
    SinkPad.from_str p.toWire = .ok p := by
  rw [SinkPad.tokenWf, Bool.and_eq_true, Bool.and_eq_true] at h
  obtain ⟨⟨hnode, hdot⟩, hname⟩ := h
  have hnode' : p.node.data ≠ [] := by simpa using hnode
  have hname' : p.name.data ≠ [] := by simpa using hname
  have hdot' : ∀ c ∈ p.node.data, c ≠ '.' := by
    rw [List.all_eq_true] at hdot
    intro c hc
    simpa using hdot c hc
  have hdotstr : ("." : String).data = ['.'] := rfl
  have hdata : (p.toWire).data = p.node.data ++ '.' :: p.name.data := by
    rw [SinkPad.toWire]
    simp [str_data_append, hdotstr]
  rw [SinkPad.from_str, hdata, splitFirstDot_append _ _ hdot']
  show (if p.node.data ≠ [] ∧ p.name.data ≠ [] then
      Except.ok { node := ⟨p.node.data⟩, name := ⟨p.name.data⟩ }
    else Except.error ("invalid sink pad token: " ++ p.toWire)) = Except.ok p
  rw [if_pos ⟨hnode', hname'⟩]

/-! ## Field-lookup and decoder helpers -/

theorem exceptBind_ok {α β : Type} (a : α) (f : α → Except String β) :
    (Except.ok a >>= f) = f a := rfl

theorem getStr_str (s : String) : getStr (Json.str s) = .ok s := rfl

theorem getArr_arr (es : List Json) : getArr (Json.arr es) = .ok es := rfl

theorem getObjFields_obj (fs : List (String × Json)) :
    getObjFields (Json.obj fs) = .ok fs := rfl

theorem getInt_num (n : Int) : getInt (Json.num n) = .ok n := rfl

theorem getNat_natCast (n : Nat) : getNat (Json.num (n : Int)) = .ok n := by
  have h1 : ¬ ((n : Int) < 0) := by omega
  have h2 : ((n : Int)).toNat = n := by omega
  simp [getNat, h1, h2]

theorem lookup_append {β : Type} (l1 l2 : List (String × β)) (k : String) :
    (l1 ++ l2).lookup k = (l1.lookup k).or (l2.lookup k) := by
  induction l1 with
  | nil => simp [List.lookup]
  | cons kv rest ih =>
    obtain ⟨k1, v1⟩ := kv
    simp only [List.cons_append, List.lookup]
    cases h : k == k1 <;> simp [ih]

theorem lookup_optF_self (k : String) (v : Option Json) : (optF k v).lookup k = v := by
  cases v <;> simp [optF, List.lookup]

theorem lookup_optF_ne (k k2 : String) (v : Option Json) (h : ¬ k2 = k) :
    (optF k v).lookup k2 = none := by
  have hb : (k2 == k) = false := beq_false_of_ne h
  cases v <;> simp [optF, List.lookup, hb]

theorem reqField_some (fs : List (String × Json)) (k : String) (v : Json)
    (h : fs.lookup k = some v) : reqField fs k = .ok v := by
  rw [reqField, h]

theorem optField_none {α : Type} (fs : List (String × Json)) (k : String)
    (f : Json → Except String α) (h : fs.lookup k = none) :
    optField fs k f = .ok none := by
  rw [optField, h]

theorem optField_str {α : Type} (fs : List (String × Json)) (k : String)
    (f : Json → Except String α) (v : Option α) (g : α → String)
    (h : fs.lookup k = v.map (fun a => Json.str (g a)))
    (hf : ∀ a, f (Json.str (g a)) = .ok a) :
    optField fs k f = .ok v := by
  cases v with
  | none => exact optField_none fs k f (by simpa using h)
  | some a =>
    rw [optField, h]
    show (f (Json.str (g a))).map some = Except.ok (some a)
    rw [hf a]
    rfl

theorem optField_nat (fs : List (String × Json)) (k : String) (v : Option Nat)
    (h : fs.lookup k = v.map (fun n => Json.num (n : Int))) :
    optField fs k getNat = .ok v := by
  cases v with
  | none => exact optField_none fs k getNat (by simpa using h)
  | some n =>
    rw [optField, h]
    show (getNat (Json.num (n : Int))).map some = Except.ok (some n)
    rw [getNat_natCast]
    rfl

theorem optField_int (fs : List (String × Json)) (k : String) (v : Option Int)
    (h : fs.lookup k = v.map (fun n => Json.num n)) :
    optField fs k getInt = .ok v := by
  cases v with
  | none => exact optField_none fs k getInt (by simpa using h)
  | some i =>
    rw [optField, h]
    show (getInt (Json.num i)).map some = Except.ok (some i)
    rfl

theorem mapM_loop_ok {α β : Type} (f : β → Except String α) (g : α → β)
    (l : List α) (acc : List α)
    (h : ∀ x ∈ l, f (g x) = .ok x) :
    List.mapM.loop f (l.map g) acc = .ok (acc.reverse ++ l) := by
  induction l generalizing acc with
  | nil =>
    simp only [List.map_nil, List.mapM.loop, List.append_nil]
    rfl
  | cons x rest ih =>
    rw [List.map_cons, List.mapM.loop, h x (List.mem_cons_self x rest), exceptBind_ok,
      ih (x :: acc) (fun y hy => h y (List.mem_cons_of_mem x hy))]
    simp

theorem mapM_ok_map {α β : Type} (f : β → Except String α) (g : α → β) (l : List α)
    (h : ∀ x ∈ l, f (g x) = .ok x) : (l.map g).mapM f = .ok l := by
  rw [List.mapM, mapM_loop_ok f g l [] h]
  rfl

theorem mapM_getStr (xs : List String) : (xs.map Json.str).mapM getStr = .ok xs :=
  mapM_ok_map getStr Json.str xs (fun _ _ => rfl)

theorem decodeVec1_strs (v : Vec1 String) :
    decodeVec1 getStr (Json.arr (v.toList.map Json.str)) = .ok v := by
  simp only [decodeVec1, getArr_arr, exceptBind_ok, mapM_getStr, Vec1.toList]

theorem lookup_mid (pre mid post : List (String × Json)) (k : String)
    (hpre : pre.lookup k = none) (hpost : post.lookup k = none) :
    (pre ++ mid ++ post).lookup k = mid.lookup k := by
  rw [lookup_append, lookup_append, hpre, hpost, Option.none_or, Option.or_none]

theorem decodeCommonVideo_encode (c : CommonVideoSourceProperties)
    (pre post : List (String × Json))
    (p1 : pre.lookup "source_id" = none) (q1 : post.lookup "source_id" = none)
    (p2 : pre.lookup "resolution" = none) (q2 : post.lookup "resolution" = none)
    (p3 : pre.lookup "framerate" = none) (q3 : post.lookup "framerate" = none)
    (p4 : pre.lookup "fps" = none) (q4 : post.lookup "fps" = none)
    (p5 : pre.lookup "rotate" = none) (q5 : post.lookup "rotate" = none)
    (p6 : pre.lookup "rotate_fixed_angle" = none)
    (q6 : post.lookup "rotate_fixed_angle" = none)
    (p7 : pre.lookup "flip" = none) (q7 : post.lookup "flip" = none)
    (p8 : pre.lookup "crop" = none) (q8 : post.lookup "crop" = none) :
    decodeCommonVideo (pre ++ encodeCommonVideo c ++ post) = .ok c := by
  have henc_sid : (encodeCommonVideo c).lookup "source_id"
      = some (Json.str c.source_id) := by
    simp [encodeCommonVideo, lookup_append, lookup_optF_self, lookup_optF_ne,
      List.lookup]
  have henc_res : (encodeCommonVideo c).lookup "resolution"
      = c.resolution.map (fun r => Json.str r.serializeStr) := by
    simp [encodeCommonVideo, lookup_append, lookup_optF_self, lookup_optF_ne,
      List.lookup]
  have henc_fr : (encodeCommonVideo c).lookup "framerate"
      = c.framerate.map (fun n => Json.num (n : Int)) := by
    simp [encodeCommonVideo, lookup_append, lookup_optF_self, lookup_optF_ne,
      List.lookup]
  have henc_fps : (encodeCommonVideo c).lookup "fps" = none := by
    simp [encodeCommonVideo, lookup_append, lookup_optF_self, lookup_optF_ne,
      List.lookup]
  have henc_rot : (encodeCommonVideo c).lookup "rotate"
      = c.rotate.map (fun n => Json.num n) := by
    simp [encodeCommonVideo, lookup_append, lookup_optF_self, lookup_optF_ne,
      List.lookup]
  have henc_rfa : (encodeCommonVideo c).lookup "rotate_fixed_angle"
      = c.rotate_fixed_angle.map (fun d => Json.str d.toWire) := by
    simp [encodeCommonVideo, lookup_append, lookup_optF_self, lookup_optF_ne,
      List.lookup]
  have henc_fl : (encodeCommonVideo c).lookup "flip"
      = c.flip.map (fun d => Json.str d.toWire) := by
    simp [encodeCommonVideo, lookup_append, lookup_optF_self, lookup_optF_ne,
      List.lookup]
  have henc_cr : (encodeCommonVideo c).lookup "crop"
      = c.crop.map (fun cr => Json.str cr.serializeStr) := by
    simp [encodeCommonVideo, lookup_append, lookup_optF_self, lookup_optF_ne,
      List.lookup]
  have e1 : reqField (pre ++ encodeCommonVideo c ++ post) "source_id"
      = .ok (Json.str c.source_id) :=
    reqField_some _ _ _ ((lookup_mid pre _ post _ p1 q1).trans henc_sid)
  have e2 : optField (pre ++ encodeCommonVideo c ++ post) "resolution"
      (fun j => getStr j >>= Resolution.from_str) = .ok c.resolution :=
    optField_str _ _ _ _ (fun r => r.serializeStr)
      ((lookup_mid pre _ post _ p2 q2).trans henc_res)
      (fun r => resolution_from_str_serialize r)
  have e3 : optField (pre ++ encodeCommonVideo c ++ post) "framerate" getNat
      = .ok c.framerate :=
    optField_nat _ _ _ ((lookup_mid pre _ post _ p3 q3).trans henc_fr)
  have e4 : optField (pre ++ encodeCommonVideo c ++ post) "fps" getNat = .ok none :=
    optField_none _ _ _ ((lookup_mid pre _ post _ p4 q4).trans henc_fps)
  have e5 : optField (pre ++ encodeCommonVideo c ++ post) "rotate" getInt
      = .ok c.rotate :=
    optField_int _ _ _ ((lookup_mid pre _ post _ p5 q5).trans henc_rot)
  have e6 : optField (pre ++ encodeCommonVideo c ++ post) "rotate_fixed_angle"
      (fun j => getStr j >>= RotateDirection.fromWire) = .ok c.rotate_fixed_angle :=
    optField_str _ _ _ _ RotateDirection.toWire
      ((lookup_mid pre _ post _ p6 q6).trans henc_rfa)
      (fun d => rotateDirection_round d)
  have e7 : optField (pre ++ encodeCommonVideo c ++ post) "flip"
      (fun j => getStr j >>= FlipDirection.fromWire) = .ok c.flip :=
    optField_str _ _ _ _ FlipDirection.toWire
      ((lookup_mid pre _ post _ p7 q7).trans henc_fl)
      (fun d => flipDirection_round d)
  have e8 : optField (pre ++ encodeCommonVideo c ++ post) "crop"
      (fun j => getStr j >>= Crop.from_str) = .ok c.crop :=
    optField_str _ _ _ _ (fun cr => cr.serializeStr)
      ((lookup_mid pre _ post _ p8 q8).trans henc_cr)
      (fun cr => crop_from_str_serialize cr)
  simp only [decodeCommonVideo, e1, e2, e3, e4, e5, e6, e7, e8, exceptBind_ok,
    getStr_str, Option.or_none]

theorem decodeCameraRuntime_encode (rt : Option CameraRuntime)
    (pre : List (String × Json))
    (h1 : pre.lookup "usb" = none) (h2 : pre.lookup "csi" = none) :
    decodeCameraRuntime (pre ++ encodeCameraRuntime rt) = .ok rt := by
  cases rt with
  | none =>
    have hu : (pre ++ encodeCameraRuntime none).lookup "usb" = none := by
      rw [lookup_append, h1, Option.none_or]
      rfl
    have hc : (pre ++ encodeCameraRuntime none).lookup "csi" = none := by
      rw [lookup_append, h2, Option.none_or]
      rfl
    rw [decodeCameraRuntime, hu, hc]
  | some cr =>
    cases cr with
    | usb r =>
      have hu : (pre ++ encodeCameraRuntime (some (.usb r))).lookup "usb"
          = some (Json.obj [("uri", Json.str r.uri), ("name", Json.str r.name)]) := by
        rw [lookup_append, h1, Option.none_or]
        simp [encodeCameraRuntime, List.lookup]
      rw [decodeCameraRuntime, hu]
      simp [getObjFields_obj, exceptBind_ok, reqField, List.lookup, getStr_str]
    | csi r =>
      have hu : (pre ++ encodeCameraRuntime (some (.csi r))).lookup "usb" = none := by
        rw [lookup_append, h1, Option.none_or]
        simp [encodeCameraRuntime, List.lookup]
      have hc : (pre ++ encodeCameraRuntime (some (.csi r))).lookup "csi"
          = some (Json.obj [("uri", Json.str r.uri), ("name", Json.str r.name)]) := by
        rw [lookup_append, h2, Option.none_or]
        simp [encodeCameraRuntime, List.lookup]
      rw [decodeCameraRuntime, hu, hc]
      simp [getObjFields_obj, exceptBind_ok, reqField, List.lookup, getStr_str]

theorem decodeInputStreamRuntime_encode (rt : Option InputStreamRuntime)
    (pre : List (String × Json))
    (h1 : pre.lookup "url_file" = none) (h2 : pre.lookup "lumeo_file" = none)
    (h3 : pre.lookup "rtsp" = none) (h4 : pre.lookup "web_rtc" = none) :
    decodeInputStreamRuntime (pre ++ encodeInputStreamRuntime rt) = .ok rt := by
  cases rt with
  | none =>
    have k1 : (pre ++ encodeInputStreamRuntime none).lookup "url_file" = none := by
      rw [lookup_append, h1, Option.none_or]
      rfl
    have k2 : (pre ++ encodeInputStreamRuntime none).lookup "lumeo_file" = none := by
      rw [lookup_append, h2, Option.none_or]
      rfl
    have k3 : (pre ++ encodeInputStreamRuntime none).lookup "rtsp" = none := by
      rw [lookup_append, h3, Option.none_or]
      rfl
    have k4 : (pre ++ encodeInputStreamRuntime none).lookup "web_rtc" = none := by
      rw [lookup_append, h4, Option.none_or]
      rfl
    rw [decodeInputStreamRuntime, k1, k2, k3, k4]
  | some sr =>
    cases sr with
    | urlFile r =>
      have k1 : (pre ++ encodeInputStreamRuntime (some (.urlFile r))).lookup "url_file"
          = some (Json.obj [("name", Json.str r.name),
              ("urls", Json.arr (r.urls.toList.map Json.str))]) := by
        rw [lookup_append, h1, Option.none_or]
        simp [encodeInputStreamRuntime, List.lookup]
      rw [decodeInputStreamRuntime, k1]
      simp [getObjFields_obj, exceptBind_ok, reqField, List.lookup, getStr_str,
        decodeVec1_strs]
    | lumeoFile r =>
      have k1 : (pre ++ encodeInputStreamRuntime (some (.lumeoFile r))).lookup "url_file"
          = none := by
        rw [lookup_append, h1, Option.none_or]
        simp [encodeInputStreamRuntime, List.lookup]
      have k2 : (pre ++ encodeInputStreamRuntime
            (some (.lumeoFile r))).lookup "lumeo_file"
          = some (Json.obj [("name", Json.str r.name),
              ("file_ids", Json.arr (r.file_ids.toList.map Json.str))]) := by
        rw [lookup_append, h2, Option.none_or]
        simp [encodeInputStreamRuntime, List.lookup]
      rw [decodeInputStreamRuntime, k1, k2]
      simp [getObjFields_obj, exceptBind_ok, reqField, List.lookup, getStr_str,
        decodeVec1_strs]
    | rtsp r =>
      have k1 : (pre ++ encodeInputStreamRuntime (some (.rtsp r))).lookup "url_file"
          = none := by
        rw [lookup_append, h1, Option.none_or]
        simp [encodeInputStreamRuntime, List.lookup]
      have k2 : (pre ++ encodeInputStreamRuntime (some (.rtsp r))).lookup "lumeo_file"
          = none := by
        rw [lookup_append, h2, Option.none_or]
        simp [encodeInputStreamRuntime, List.lookup]
      have k3 : (pre ++ encodeInputStreamRuntime (some (.rtsp r))).lookup "rtsp"
          = some (Json.obj [("uri", Json.str r.uri), ("name", Json.str r.name)]) := by
        rw [lookup_append, h3, Option.none_or]
        simp [encodeInputStreamRuntime, List.lookup]
      rw [decodeInputStreamRuntime, k1, k2, k3]
      simp [getObjFields_obj, exceptBind_ok, reqField, List.lookup, getStr_str]
    | webRtc r =>
      have k1 : (pre ++ encodeInputStreamRuntime (some (.webRtc r))).lookup "url_file"
          = none := by
        rw [lookup_append, h1, Option.none_or]
        simp [encodeInputStreamRuntime, List.lookup]
      have k2 : (pre ++ encodeInputStreamRuntime (some (.webRtc r))).lookup "lumeo_file"
          = none := by
        rw [lookup_append, h2, Option.none_or]
        simp [encodeInputStreamRuntime, List.lookup]
      have k3 : (pre ++ encodeInputStreamRuntime (some (.webRtc r))).lookup "rtsp"
          = none := by
        rw [lookup_append, h3, Option.none_or]
        simp [encodeInputStreamRuntime, List.lookup]
      have k4 : (pre ++ encodeInputStreamRuntime (some (.webRtc r))).lookup "web_rtc"
          = some (Json.obj []) := by
        rw [lookup_append, h4, Option.none_or]
        simp [encodeInputStreamRuntime, List.lookup]
      rw [decodeInputStreamRuntime, k1, k2, k3, k4]

theorem lookup_encCamera_ne (rt : Option CameraRuntime) (k : String)
    (h1 : ¬ k = "usb") (h2 : ¬ k = "csi") :
    (encodeCameraRuntime rt).lookup k = none := by
  have b1 := beq_false_of_ne h1
  have b2 := beq_false_of_ne h2
  cases rt with
  | none => rfl
  | some cr => cases cr <;> simp [encodeCameraRuntime, List.lookup, b1, b2]

theorem lookup_encStream_ne (rt : Option InputStreamRuntime) (k : String)
    (h1 : ¬ k = "url_file") (h2 : ¬ k = "lumeo_file")
    (h3 : ¬ k = "rtsp") (h4 : ¬ k = "web_rtc") :
    (encodeInputStreamRuntime rt).lookup k = none := by
  have b1 := beq_false_of_ne h1
  have b2 := beq_false_of_ne h2
  have b3 := beq_false_of_ne h3
  have b4 := beq_false_of_ne h4
  cases rt with
  | none => rfl
  | some sr => cases sr <;> simp [encodeInputStreamRuntime, List.lookup, b1, b2, b3, b4]

theorem lookup_encCommon_ne (c : CommonVideoSourceProperties) (k : String)
    (h1 : ¬ k = "source_id") (h2 : ¬ k = "resolution") (h3 : ¬ k = "framerate")
    (h4 : ¬ k = "rotate") (h5 : ¬ k = "rotate_fixed_angle") (h6 : ¬ k = "flip")
    (h7 : ¬ k = "crop") :
    (encodeCommonVideo c).lookup k = none := by
  simp [encodeCommonVideo, lookup_append, lookup_optF_ne, List.lookup,
    beq_false_of_ne h1, h2, h3, h4, h5, h6, h7]

theorem exceptMap_ok {α β : Type} (a : α) (f : α → β) :
    (Except.ok a : Except String α).map f = .ok (f a) := rfl

theorem decodeNodeProperties_encode (np : NodeProperties) :
    decodeNodeProperties (encodeProperties np) = .ok np := by
  cases np with
  | videoSource vs =>
    cases vs with
    | camera pp =>
      set F := [("type", Json.str "video"), ("source_type", Json.str "camera")]
        ++ encodeCommonVideo pp.common ++ encodeCameraRuntime pp.runtime with hF
      have hEnc : encodeProperties (.videoSource (.camera pp)) = Json.obj F := by
        rw [hF]
        rfl
      have ht : F.lookup "type" = some (Json.str "video") := by
        rw [hF, lookup_append, lookup_append]
        simp [List.lookup]
      have hst : F.lookup "source_type" = some (Json.str "camera") := by
        rw [hF, lookup_append, lookup_append]
        simp [List.lookup]
      have hcv : decodeCommonVideo F = .ok pp.common := by
        rw [hF]
        exact decodeCommonVideo_encode pp.common _ _
          rfl (lookup_encCamera_ne _ _ (by decide) (by decide))
          rfl (lookup_encCamera_ne _ _ (by decide) (by decide))
          rfl (lookup_encCamera_ne _ _ (by decide) (by decide))
          rfl (lookup_encCamera_ne _ _ (by decide) (by decide))
          rfl (lookup_encCamera_ne _ _ (by decide) (by decide))
          rfl (lookup_encCamera_ne _ _ (by decide) (by decide))
          rfl (lookup_encCamera_ne _ _ (by decide) (by decide))
          rfl (lookup_encCamera_ne _ _ (by decide) (by decide))
      have hcr : decodeCameraRuntime F = .ok pp.runtime := by
        rw [hF]
        refine decodeCameraRuntime_encode pp.runtime _ ?_ ?_
        · rw [lookup_append,
            lookup_encCommon_ne pp.common "usb" (by decide) (by decide) (by decide)
              (by decide) (by decide) (by decide) (by decide)]
          rfl
        · rw [lookup_append,
            lookup_encCommon_ne pp.common "csi" (by decide) (by decide) (by decide)
              (by decide) (by decide) (by decide) (by decide)]
          rfl
      have hv : decodeVideoSourceProperties F = .ok (.camera pp) := by
        simp only [decodeVideoSourceProperties, reqField_some _ _ _ hst, getStr_str,
          exceptBind_ok, hcv, hcr]
        simp
      rw [hEnc]
      simp only [decodeNodeProperties, getObjFields_obj, reqField_some _ _ _ ht,
        getStr_str, exceptBind_ok, hv]
      simp [exceptMap_ok]
    | stream pp =>
      set F := [("type", Json.str "video"), ("source_type", Json.str "stream")]
        ++ encodeCommonVideo pp.common ++ encodeInputStreamRuntime pp.runtime with hF
      have hEnc : encodeProperties (.videoSource (.stream pp)) = Json.obj F := by
        rw [hF]
        rfl
      have ht : F.lookup "type" = some (Json.str "video") := by
        rw [hF, lookup_append, lookup_append]
        simp [List.lookup]
      have hst : F.lookup "source_type" = some (Json.str "stream") := by
        rw [hF, lookup_append, lookup_append]
        simp [List.lookup]
      have hcv : decodeCommonVideo F = .ok pp.common := by
        rw [hF]
        exact decodeCommonVideo_encode pp.common _ _
          rfl (lookup_encStream_ne _ _ (by decide) (by decide) (by decide) (by decide))
          rfl (lookup_encStream_ne _ _ (by decide) (by decide) (by decide) (by decide))
          rfl (lookup_encStream_ne _ _ (by decide) (by decide) (by decide) (by decide))
          rfl (lookup_encStream_ne _ _ (by decide) (by decide) (by decide) (by decide))
          rfl (lookup_encStream_ne _ _ (by decide) (by decide) (by decide) (by decide))
          rfl (lookup_encStream_ne _ _ (by decide) (by decide) (by decide) (by decide))
          rfl (lookup_encStream_ne _ _ (by decide) (by decide) (by decide) (by decide))
          rfl (lookup_encStream_ne _ _ (by decide) (by decide) (by decide) (by decide))
      have hsr : decodeInputStreamRuntime F = .ok pp.runtime := by
        rw [hF]
        refine decodeInputStreamRuntime_encode pp.runtime _ ?_ ?_ ?_ ?_
        · rw [lookup_append,
            lookup_encCommon_ne pp.common "url_file" (by decide) (by decide) (by decide)
              (by decide) (by decide) (by decide) (by decide)]
          rfl
        · rw [lookup_append,
            lookup_encCommon_ne pp.common "lumeo_file" (by decide) (by decide)
              (by decide) (by decide) (by decide) (by decide) (by decide)]
          rfl
        · rw [lookup_append,
            lookup_encCommon_ne pp.common "rtsp" (by decide) (by decide) (by decide)
              (by decide) (by decide) (by decide) (by decide)]
          rfl
        · rw [lookup_append,
            lookup_encCommon_ne pp.common "web_rtc" (by decide) (by decide) (by decide)
              (by decide) (by decide) (by decide) (by decide)]
          rfl
      have hv : decodeVideoSourceProperties F = .ok (.stream pp) := by
        simp only [decodeVideoSourceProperties, reqField_some _ _ _ hst, getStr_str,
          exceptBind_ok, hcv, hsr]
        simp
      rw [hEnc]
      simp only [decodeNodeProperties, getObjFields_obj, reqField_some _ _ _ ht,
        getStr_str, exceptBind_ok, hv]
      simp [exceptMap_ok]
  | encode p =>
    set F := [("type", Json.str "encode"), ("codec", Json.str p.codec)]
      ++ optF "max_bitrate" (p.max_bitrate.map (fun n => Json.num n))
      ++ optF "bitrate" (p.bitrate.map (fun n => Json.num n))
      ++ optF "quality" (p.quality.map (fun n => Json.num n))
      ++ optF "framerate" (p.framerate.map (fun n => Json.num n)) with hF
    have hEnc : encodeProperties (.encode p) = Json.obj F := by
      rw [hF]
      rfl
    have ht : F.lookup "type" = some (Json.str "encode") := by
      rw [hF]
      simp [lookup_append, lookup_optF_ne, List.lookup]
    have hcodec : reqField F "codec" = .ok (Json.str p.codec) :=
      reqField_some _ _ _ (by
        rw [hF]
        simp [lookup_append, lookup_optF_ne, List.lookup])
    have hmb : optField F "max_bitrate" getNat = .ok p.max_bitrate :=
      optField_nat _ _ _ (by
        rw [hF]
        simp [lookup_append, lookup_optF_self, lookup_optF_ne, List.lookup])
    have hbr : optField F "bitrate" getNat = .ok p.bitrate :=
      optField_nat _ _ _ (by
        rw [hF]
        simp [lookup_append, lookup_optF_self, lookup_optF_ne, List.lookup])
    have hq : optField F "quality" getNat = .ok p.quality :=
      optField_nat _ _ _ (by
        rw [hF]
        simp [lookup_append, lookup_optF_self, lookup_optF_ne, List.lookup])
    have hfr : optField F "framerate" getNat = .ok p.framerate :=
      optField_nat _ _ _ (by
        rw [hF]
        simp [lookup_append, lookup_optF_self, lookup_optF_ne, List.lookup])
    have hfps : optField F "fps" getNat = .ok none :=
      optField_none _ _ _ (by
        rw [hF]
        simp [lookup_append, lookup_optF_ne, List.lookup])
    have hd : decodeEncodeProperties F = .ok p := by
      simp only [decodeEncodeProperties, hcodec, getStr_str, exceptBind_ok, hmb, hbr,
        hq, hfr, hfps, Option.or_none]
    rw [hEnc]
    simp only [decodeNodeProperties, getObjFields_obj, reqField_some _ _ _ ht,
      getStr_str, exceptBind_ok, hd]
    simp [exceptMap_ok]
  | streamRtspOut p =>
    obtain ⟨rt⟩ := p
    cases rt with
    | none => rfl
    | some r =>
      set F := [("type", Json.str "stream_rtsp_out")]
        ++ ([("uri", Json.str r.uri), ("stream_id", Json.str r.stream_id)]
          ++ optF "udp_port" (r.udp_port.map (fun n => Json.num n))) with hF
      have hEnc : encodeProperties (.streamRtspOut ⟨some r⟩) = Json.obj F := by
        rw [hF]
        rfl
      have ht : F.lookup "type" = some (Json.str "stream_rtsp_out") := by
        rw [hF]
        simp [lookup_append, lookup_optF_ne, List.lookup]
      have huri : F.lookup "uri" = some (Json.str r.uri) := by
        rw [hF]
        simp [lookup_append, lookup_optF_ne, List.lookup]
      have hsid : F.lookup "stream_id" = some (Json.str r.stream_id) := by
        rw [hF]
        simp [lookup_append, lookup_optF_ne, List.lookup]
      have hport : optField F "udp_port" getNat = .ok r.udp_port :=
        optField_nat _ _ _ (by
          rw [hF]
          simp [lookup_append, lookup_optF_self, lookup_optF_ne, List.lookup])
      have hd : decodeStreamRtspOut F = .ok ⟨some r⟩ := by
        rw [decodeStreamRtspOut, huri]
        simp only [reqField_some _ _ _ huri, reqField_some _ _ _ hsid, getStr_str,
          exceptBind_ok, hport]
      rw [hEnc]
      simp only [decodeNodeProperties, getObjFields_obj, reqField_some _ _ _ ht,
        getStr_str, exceptBind_ok, hd]
      simp [exceptMap_ok]
  | transform p =>
    set F := [("type", Json.str "transform")]
      ++ optF "framerate" (p.framerate.map (fun n => Json.num n))
      ++ optF "resolution" (p.resolution.map (fun r => Json.str r.serializeStr))
      ++ optF "rotation" (p.rotation.map (fun n => Json.num n))
      ++ optF "flip_direction" (p.flip_direction.map (fun d => Json.str d.toWire))
      ++ optF "crop_region" (p.crop_region.map (fun c => Json.str c.serializeStr)) with hF
    have hEnc : encodeProperties (.transform p) = Json.obj F := by
      rw [hF]
      rfl
    have ht : F.lookup "type" = some (Json.str "transform") := by
      rw [hF]
      simp [lookup_append, lookup_optF_ne, List.lookup]
    have hfr : optField F "framerate" getNat = .ok p.framerate :=
      optField_nat _ _ _ (by
        rw [hF]
        simp [lookup_append, lookup_optF_self, lookup_optF_ne, List.lookup])
    have hfps : optField F "fps" getNat = .ok none :=
      optField_none _ _ _ (by
        rw [hF]
        simp [lookup_append, lookup_optF_ne, List.lookup])
    have hres : optField F "resolution" (fun j => getStr j >>= Resolution.from_str)
        = .ok p.resolution :=
      optField_str _ _ _ _ (fun r => r.serializeStr)
        (by
          rw [hF]
          simp [lookup_append, lookup_optF_self, lookup_optF_ne, List.lookup])
        (fun r => resolution_from_str_serialize r)
    have hrot : optField F "rotation" getInt = .ok p.rotation :=
      optField_int _ _ _ (by
        rw [hF]
        simp [lookup_append, lookup_optF_self, lookup_optF_ne, List.lookup])
    have hfd : optField F "flip_direction" (fun j => getStr j >>= FlipDirection.fromWire)
        = .ok p.flip_direction :=
      optField_str _ _ _ _ FlipDirection.toWire
        (by
          rw [hF]
          simp [lookup_append, lookup_optF_self, lookup_optF_ne, List.lookup])
        (fun d => flipDirection_round d)
    have hcrr : optField F "crop_region" (fun j => getStr j >>= Crop.from_str)
        = .ok p.crop_region :=
      optField_str _ _ _ _ (fun c => c.serializeStr)
        (by
          rw [hF]
          simp [lookup_append, lookup_optF_self, lookup_optF_ne, List.lookup])
        (fun c => crop_from_str_serialize c)
    have hcra : optField F "crop" (fun j => getStr j >>= Crop.from_str) = .ok none :=
      optField_none _ _ _ (by
        rw [hF]
        simp [lookup_append, lookup_optF_ne, List.lookup])
    have hd : decodeTransform F = .ok p := by
      simp only [decodeTransform, hfr, hfps, hres, hrot, hfd, hcrr, hcra,
        exceptBind_ok, Option.or_none]
    rw [hEnc]
    simp only [decodeNodeProperties, getObjFields_obj, reqField_some _ _ _ ht,
      getStr_str, exceptBind_ok, hd]
    simp [exceptMap_ok]
  | grid p =>
    set F := [("type", Json.str "grid"), ("rows", Json.num p.rows),
        ("columns", Json.num p.columns)]
      ++ optF "resolution" (p.resolution.map (fun r => Json.str r.serializeStr)) with hF
    have hEnc : encodeProperties (.grid p) = Json.obj F := by
      rw [hF]
      rfl
    have ht : F.lookup "type" = some (Json.str "grid") := by
      rw [hF]
      simp [lookup_append, lookup_optF_ne, List.lookup]
    have hrows : reqField F "rows" = .ok (Json.num p.rows) :=
      reqField_some _ _ _ (by
        rw [hF]
        simp [lookup_append, lookup_optF_ne, List.lookup])
    have hcols : reqField F "columns" = .ok (Json.num p.columns) :=
      reqField_some _ _ _ (by
        rw [hF]
        simp [lookup_append, lookup_optF_ne, List.lookup])
    have hres : optField F "resolution" (fun j => getStr j >>= Resolution.from_str)
        = .ok p.resolution :=
      optField_str _ _ _ _ (fun r => r.serializeStr)
        (by
          rw [hF]
          simp [lookup_append, lookup_optF_self, lookup_optF_ne, List.lookup])
        (fun r => resolution_from_str_serialize r)
    have hd : decodeGrid F = .ok p := by
      simp only [decodeGrid, hrows, hcols, getNat_natCast, exceptBind_ok, hres]
    rw [hEnc]
    simp only [decodeNodeProperties, getObjFields_obj, reqField_some _ _ _ ht,
      getStr_str, exceptBind_ok, hd]
    simp [exceptMap_ok]
  | gstTemplate p =>
    set F := [("type", Json.str "gst_template"),
      ("definition", Json.str p.definition), ("props", Json.obj p.props)] with hF
    have hEnc : encodeProperties (.gstTemplate p) = Json.obj F := by
      rw [hF]
      rfl
    have ht : F.lookup "type" = some (Json.str "gst_template") := by
      rw [hF]
      simp [List.lookup]
    have hdef : reqField F "definition" = .ok (Json.str p.definition) :=
      reqField_some _ _ _ (by
        rw [hF]
        simp [List.lookup])
    have hprops : F.lookup "props" = some (Json.obj p.props) := by
      rw [hF]
      simp [List.lookup]
    have hd : decodeGstTemplate F = .ok p := by
      simp only [decodeGstTemplate, hdef, getStr_str, exceptBind_ok, hprops,
        getObjFields_obj]
    rw [hEnc]
    simp only [decodeNodeProperties, getObjFields_obj, reqField_some _ _ _ ht,
      getStr_str, exceptBind_ok, hd]
    simp [exceptMap_ok]

theorem insertPad_append (p : SourcePad) (acc : List SourcePad)
    (h : ∀ x ∈ acc, x.name < p.name) : insertPad p acc = acc ++ [p] := by
  induction acc with
  | nil => rfl
  | cons q rest ih =>
    have hq := h q (List.mem_cons_self q rest)
    rw [insertPad, if_neg (lt_asymm hq),
      if_neg (by
        intro he
        rw [he] at hq
        exact lt_irrefl _ hq),
      ih (fun x hx => h x (List.mem_cons_of_mem q hx))]
    rfl

theorem padsSortedB_iff_pairwise (l : List SourcePad) :
    padsSortedB l = true ↔ l.Pairwise (fun a b => a.name < b.name) := by
  induction l with
  | nil => simp [padsSortedB]
  | cons x rest ih =>
    cases rest with
    | nil => simp [padsSortedB]
    | cons y rest2 =>
      rw [padsSortedB, Bool.and_eq_true, decide_eq_true_eq, ih]
      constructor
      · rintro ⟨hlt, hp⟩
        refine List.Pairwise.cons ?_ hp
        intro a ha
        rcases List.mem_cons.mp ha with rfl | ha2
        · exact hlt
        · exact lt_trans hlt ((List.pairwise_cons.mp hp).1 a ha2)
      · intro hp
        rw [List.pairwise_cons] at hp
        exact ⟨hp.1 y (by simp), hp.2⟩

theorem pads_foldl_from_sorted (l acc : List SourcePad)
    (hs : (acc ++ l).Pairwise (fun a b => a.name < b.name)) :
    List.foldl SourcePads.add ⟨acc⟩ l = ⟨acc ++ l⟩ := by
  induction l generalizing acc with
  | nil => simp
  | cons p rest ih =>
    rw [List.foldl_cons]
    have hlt : ∀ x ∈ acc, x.name < p.name := by
      intro x hx
      exact (List.pairwise_append.mp hs).2.2 x hx p (by simp)
    show List.foldl SourcePads.add ⟨insertPad p acc⟩ rest = _
    rw [insertPad_append p acc hlt]
    have hs2 : ((acc ++ [p]) ++ rest).Pairwise (fun a b => a.name < b.name) := by
      rw [List.append_assoc]
      simpa using hs
    rw [ih (acc ++ [p]) hs2]
    simp

theorem decodeSourcePads_encode (ps : SourcePads) (h : ps.wfB = true) :
    decodeSourcePads (encodeSourcePads ps) = .ok ps := by
  obtain ⟨pads⟩ := ps
  rw [SourcePads.wfB, Bool.and_eq_true] at h
  obtain ⟨hsort, htok⟩ := h
  rw [List.all_eq_true] at htok
  have hobj : getObjFields (encodeSourcePads ⟨pads⟩) = .ok
      (pads.map (fun sp => (sp.name,
        Json.arr (sp.sinks.map (fun s => Json.str s.toWire))))) := rfl
  have hmapM : (pads.map (fun sp => (sp.name,
      Json.arr (sp.sinks.map (fun s => Json.str s.toWire))))).mapM
      (fun kv => do
        let sinksJson ← getArr kv.2
        let sinks ← sinksJson.mapM decodeSinkPadJson
        pure { name := kv.1, sinks := sinks : SourcePad }) = .ok pads := by
    refine mapM_ok_map _ _ _ ?_
    intro sp hsp
    have hsinks : (sp.sinks.map (fun s => Json.str s.toWire)).mapM decodeSinkPadJson
        = .ok sp.sinks := by
      refine mapM_ok_map _ _ _ ?_
      intro s hs
      have hall := htok sp hsp
      rw [List.all_eq_true] at hall
      exact sinkPad_from_str_toWire s (hall s hs)
    show (do
      let sinksJson ← getArr (Json.arr (sp.sinks.map (fun s => Json.str s.toWire)))
      let sinks ← sinksJson.mapM decodeSinkPadJson
      pure { name := sp.name, sinks := sinks : SourcePad }) = Except.ok sp
    simp only [getArr_arr, exceptBind_ok, hsinks]
    rfl
  have hfold : List.foldl SourcePads.add SourcePads.new pads = ⟨pads⟩ := by
    have h2 := pads_foldl_from_sorted pads []
      (by simpa using (padsSortedB_iff_pairwise pads).mp hsort)
    simpa using h2
  simp only [decodeSourcePads, hobj, exceptBind_ok, hmapM, hfold]

theorem decodeNode_encode (n : Node) (h : n.source_pads.wfB = true) :
    decodeNode (encodeNode n) = .ok n := by
  set G := [("id", Json.str n.id), ("properties", encodeProperties n.properties),
    ("wires", encodeSourcePads n.source_pads)] with hG
  have hobj : getObjFields (encodeNode n) = .ok G := by
    rw [hG]
    rfl
  have hid : reqField G "id" = .ok (Json.str n.id) :=
    reqField_some _ _ _ (by
      rw [hG]
      simp [List.lookup])
  have hprops : reqField G "properties" = .ok (encodeProperties n.properties) :=
    reqField_some _ _ _ (by
      rw [hG]
      simp [List.lookup])
  have hwires : G.lookup "wires" = some (encodeSourcePads n.source_pads) := by
    rw [hG]
    simp [List.lookup]
  have hsp : decodeSourcePads (encodeSourcePads n.source_pads) = .ok n.source_pads :=
    decodeSourcePads_encode n.source_pads h
  simp only [decodeNode, hobj, exceptBind_ok, hid, getStr_str,
    decodeNodeProperties_encode, hprops, hwires, Node.new, Option.getD_some]
  show (decodeSourcePads (encodeSourcePads n.source_pads) >>= fun y =>
      pure { id := n.id, properties := n.properties, source_pads := y }) = Except.ok n
  rw [hsp, exceptBind_ok]
  rfl

/-! ## Claim theorems -/

/-- C1: every sink-pad reference must name a present node id: a dangling
reference makes the decode fail with an error naming the missing id (in
particular, a single node wired to `"ghost.input"` fails naming `ghost`);
with every reference present, validation succeeds and the indexed pipeline
is returned. -/
theorem pipeline_decode_rejects_dangling_refs :
    (∀ ns : List Node,
      ((Pipeline.build ns).refsValid = true →
        Pipeline.deserializeNodes ns = .ok (Pipeline.build ns)) ∧
      ((Pipeline.build ns).refsValid = false →
        ∃ m, m ∈ (Pipeline.build ns).allSinkNodes ∧
          (Pipeline.build ns).node_by_id m = none ∧
          Pipeline.deserializeNodes ns = .error (dstNotFoundMsg m))) ∧
    Pipeline.deserializeNodes [ghostNode] =
      .error "Destination node `ghost` not found" := by
  constructor
  · intro ns
    constructor
    · intro h
      exact (deserializeNodes_ok_iff ns).mpr h
    · intro h
      cases hc : checkNodes (Pipeline.build ns) (Pipeline.build ns).nodesList with
      | ok u =>
        obtain ⟨⟩ := u
        have := (refsValid_iff _).mpr ((checkNodes_ok_iff _ _).mp hc)
        rw [h] at this
        exact absurd this (by simp)
      | error e =>
        obtain ⟨n, hn, sp, hsp, sk, hsk, hnone, he⟩ := checkNodes_error _ _ _ hc
        refine ⟨sk.node, ?_, hnone, ?_⟩
        · rw [Pipeline.allSinkNodes, List.mem_flatMap]
          refine ⟨n, hn, ?_⟩
          rw [Node.sinkNodes, List.mem_flatMap]
          exact ⟨sp, hsp, List.mem_map_of_mem _ hsk⟩
        · rw [Pipeline.deserializeNodes]
          rw [hc, he]
  · rfl

/-- Witness for C1: a self-wired node decodes successfully, and the
dangling `ghost` reference is rejected with the naming error. -/
theorem pipeline_decode_rejects_dangling_refs_witness :
    Pipeline.deserializeNodes [selfNode] = .ok (Pipeline.build [selfNode]) ∧
    (∃ m, m ∈ (Pipeline.build [ghostNode]).allSinkNodes ∧
      (Pipeline.build [ghostNode]).node_by_id m = none ∧
      Pipeline.deserializeNodes [ghostNode] = .error (dstNotFoundMsg m)) :=
  ⟨(pipeline_decode_rejects_dangling_refs.1 [selfNode]).1 rfl,
   (pipeline_decode_rejects_dangling_refs.1 [ghostNode]).2 rfl⟩

/-- C2: decoding the result of encoding a validly-constructed pipeline
(well-formed id-sorted map, well-formed name-sorted pad sets whose wire
tokens re-parse, every sink reference present) succeeds and returns the
identical pipeline.  The pad-set condition `Pipeline.padsWf` is genuinely
needed beyond the claim's all-references-present precondition: see the
counterexample, where a node id containing a dot defeats the
`"<node>.<name>"` wire-token grammar. -/
theorem pipeline_encode_decode_round_trip (p : Pipeline)
    (hwf : p.wf = true) (hpads : p.padsWf = true) (hv : p.refsValid = true) :
    Pipeline.deserializeJson (Pipeline.serializeJson p) = .ok p := by
  have hdec : (p.nodesList.map encodeNode).mapM decodeNode = .ok p.nodesList := by
    refine mapM_ok_map _ _ _ ?_
    intro n hn
    rw [Pipeline.padsWf, List.all_eq_true] at hpads
    exact decodeNode_encode n (hpads n hn)
  obtain ⟨hs, hid⟩ := wf_unpack p hwf
  have hbuild : Pipeline.build p.nodesList = p := by
    rw [Pipeline.build, Pipeline.nodesList]
    have h2 := build_from_sorted p.nodes [] (by simpa using hs) hid
    simp only [List.nil_append] at h2
    exact h2.trans (by cases p; rfl)
  have hnodes : Pipeline.deserializeNodes p.nodesList = .ok p := by
    have := (deserializeNodes_ok_iff p.nodesList).mpr (by rw [hbuild]; exact hv)
    rw [hbuild] at this
    exact this
  show Pipeline.deserializeJson (Json.arr (p.nodesList.map encodeNode)) = .ok p
  simp only [Pipeline.deserializeJson, hdec, exceptBind_ok, hnodes]

/-- Counterexample to the round-trip claim as stated: every sink reference
of `pDotEx` names a present node id, yet decoding its encoding fails: the
id `"x.y"` contains a dot, so its wire token `"x.y.input"` re-parses with
destination node `"x"`, which the validation pass then rejects. -/
theorem pipeline_encode_decode_round_trip_counterexample :
    pDotEx.wf = true ∧ pDotEx.refsValid = true ∧
    Pipeline.deserializeJson (Pipeline.serializeJson pDotEx) =
      .error "Destination node `x` not found" :=
  ⟨rfl, rfl, rfl⟩

/-- Witness for C2: the concrete two-node pipeline round-trips through the
full JSON encode and decode. -/
theorem pipeline_encode_decode_round_trip_witness :
    Pipeline.deserializeJson (Pipeline.serializeJson pipelineEx) = .ok pipelineEx :=
  pipeline_encode_decode_round_trip pipelineEx
    (by simp [Pipeline.wf, pipelineEx, keysSorted, nodeAEx, nodeBEx]; decide)
    rfl rfl

/-- C3: content that decodes as a native array decodes to the same pipeline
when handed to the flexible decoder serialized a second time as a JSON
string. -/
theorem pipeline_def_dual_shape (xs : List Json) (p : Pipeline)
    (h : deserialize_pipeline_def_optionally (Json.arr xs) = .ok (some p)) :
    deserialize_pipeline_def_optionally (Json.str (Json.encode (Json.arr xs))) =
      .ok (some p) := by
  rw [show deserialize_pipeline_def_optionally (Json.str (Json.encode (Json.arr xs))) =
      (match Json.parse (Json.encode (Json.arr xs)) with
       | .ok j2 => decodeOptionPipelineJson j2
       | .error e => (.error e : Except String (Option Pipeline))) from rfl]
  rw [Json.parse_encode]
  exact h

/-- Witness for C3: a concrete one-node document decodes equally through
both outer shapes. -/
theorem pipeline_def_dual_shape_witness :
    deserialize_pipeline_def_optionally
      (Json.str (Json.encode (Json.arr [gridNodeJson]))) = .ok (some gridPipelineEx) :=
  pipeline_def_dual_shape [gridNodeJson] gridPipelineEx rfl

/-- C4: a later node with a duplicate id silently replaces the earlier one:
decoding two records with the same id (and valid wires) succeeds with a
one-node graph holding the second record's properties. -/
theorem pipeline_decode_duplicate_id_last_wins (a : String)
    (P1 P2 : NodeProperties) (pads1 pads2 : SourcePads)
    (hv : ∀ m ∈ (Node.new a P2 (some pads2)).sinkNodes, m = a) :
    Pipeline.build [Node.new a P1 (some pads1), Node.new a P2 (some pads2)] =
      ⟨[(a, Node.new a P2 (some pads2))]⟩ ∧
    Pipeline.deserializeNodes [Node.new a P1 (some pads1), Node.new a P2 (some pads2)] =
      .ok ⟨[(a, Node.new a P2 (some pads2))]⟩ := by
  have hbuild : Pipeline.build [Node.new a P1 (some pads1), Node.new a P2 (some pads2)] =
      ⟨[(a, Node.new a P2 (some pads2))]⟩ := by
    show Pipeline.add_node (Pipeline.add_node Pipeline.new (Node.new a P1 (some pads1)))
      (Node.new a P2 (some pads2)) = _
    simp [Pipeline.new, Pipeline.add_node, Node.new, mapInsert, lt_irrefl]
  have hv2 : (⟨[(a, Node.new a P2 (some pads2))]⟩ : Pipeline).refsValid = true := by
    rw [Pipeline.refsValid, List.all_eq_true]
    intro m hm
    have hm2 : m ∈ (Node.new a P2 (some pads2)).sinkNodes := by
      simpa [Pipeline.allSinkNodes, Pipeline.nodesList] using hm
    rw [hv m hm2]
    simp [Pipeline.node_by_id, List.lookup]
  have hdes := (deserializeNodes_ok_iff _).mpr (hbuild ▸ hv2)
  rw [hbuild] at hdes
  exact ⟨hbuild, hdes⟩

/-- Witness for C4: two concrete records with id `a` decode to the
one-node graph carrying the second payload. -/
theorem pipeline_decode_duplicate_id_last_wins_witness :
    Pipeline.deserializeNodes
      [Node.new "a" gridPropsEx (some SourcePads.new),
       Node.new "a" (.grid ⟨3, 4, none⟩) (some SourcePads.new)] =
      .ok ⟨[("a", Node.new "a" (.grid ⟨3, 4, none⟩) (some SourcePads.new))]⟩ :=
  (pipeline_decode_duplicate_id_last_wins "a" gridPropsEx (.grid ⟨3, 4, none⟩)
    SourcePads.new SourcePads.new (by simp [Node.sinkNodes, Node.new,
      SourcePads.all, SourcePads.new])).2

/-- C5: `uri()` projections: a stream node with a URL/file runtime yields
the single URL exactly when the list has one element and `None` with two or
more; a camera node yields its runtime's URI when a runtime is present and
`None` otherwise. -/
theorem video_source_uri_projection :
    (∀ (c : CommonVideoSourceProperties) (nm : String) (u : Url),
      (VideoSourceProperties.stream ⟨c, some (.urlFile ⟨nm, ⟨u, []⟩⟩)⟩).uri = some u) ∧
    (∀ (c : CommonVideoSourceProperties) (nm : String) (u u2 : Url) (us : List Url),
      (VideoSourceProperties.stream ⟨c, some (.urlFile ⟨nm, ⟨u, u2 :: us⟩⟩)⟩).uri = none) ∧
    (∀ (c : CommonVideoSourceProperties) (rt : CameraRuntime),
      (VideoSourceProperties.camera ⟨c, some rt⟩).uri = some rt.uri) ∧
    (∀ c : CommonVideoSourceProperties,
      (VideoSourceProperties.camera ⟨c, none⟩).uri = none) :=
  ⟨fun _ _ _ => rfl, fun _ _ _ _ _ => rfl, fun _ _ => rfl, fun _ => rfl⟩

/-- C6: the `Crop` micro-format: the example value encodes to
`"30:40:10:20"` and decodes back; a string that is not exactly four
colon-separated unsigned-integer tokens fails decode. -/
theorem crop_codec_round_trip_and_failure :
    Crop.serializeStr { top := 10, bottom := 20, left := 30, right := 40 } = "30:40:10:20" ∧
    Crop.from_str "30:40:10:20" = .ok { top := 10, bottom := 20, left := 30, right := 40 } ∧
    Crop.from_str "1:2:3" = .error "Bad resolution format: 1:2:3" ∧
    (∀ s : String, ¬((splitChar ':' s).length = 4 ∧
        ∀ t ∈ splitChar ':' s, (parseUsize t).isSome) →
      ∃ e, Crop.from_str s = .error e) := by
  refine ⟨rfl, rfl, rfl, ?_⟩
  intro s hne
  rcases hts : splitChar ':' s with _ | ⟨a, _ | ⟨b, _ | ⟨c2, _ | ⟨d, _ | ⟨e2, rest⟩⟩⟩⟩⟩
  · exact ⟨_, by unfold Crop.from_str; rw [hts]⟩
  · exact ⟨_, by unfold Crop.from_str; rw [hts]⟩
  · exact ⟨_, by unfold Crop.from_str; rw [hts]⟩
  · exact ⟨_, by unfold Crop.from_str; rw [hts]⟩
  · have hred : Crop.from_str s =
        (match parseUsize a, parseUsize b, parseUsize c2, parseUsize d with
         | some lv, some rv, some tv, some bv =>
           Except.ok { top := tv, bottom := bv, left := lv, right := rv }
         | _, _, _, _ =>
           Except.error ("Failed to parse crop region string: " ++ s)) := by
      unfold Crop.from_str
      rw [hts]
    push_neg at hne
    have h4 : (splitChar ':' s).length = 4 := by rw [hts]; rfl
    obtain ⟨t, hmem, ht⟩ := hne h4
    rw [hts] at hmem
    have htn : parseUsize t = none := by
      cases hpt : parseUsize t with
      | none => rfl
      | some v => rw [hpt] at ht; simp at ht
    rcases ha : parseUsize a with _ | av
    · exact ⟨_, by rw [hred, ha]⟩
    · rcases hb : parseUsize b with _ | bv
      · exact ⟨_, by rw [hred, ha, hb]⟩
      · rcases hc : parseUsize c2 with _ | cv
        · exact ⟨_, by rw [hred, ha, hb, hc]⟩
        · rcases hd : parseUsize d with _ | dv
          · exact ⟨_, by rw [hred, ha, hb, hc, hd]⟩
          · exfalso
            simp only [List.mem_cons, List.not_mem_nil, or_false] at hmem
            rcases hmem with rfl | rfl | rfl | rfl
            · rw [ha] at htn
              cases htn
            · rw [hb] at htn
              cases htn
            · rw [hc] at htn
              cases htn
            · rw [hd] at htn
              cases htn
  · exact ⟨_, by unfold Crop.from_str; rw [hts]⟩

/-- Witness for C6: the three-token string `"1:2:3"` fails decode. -/
theorem crop_codec_round_trip_and_failure_witness :
    ∃ e, Crop.from_str "1:2:3" = .error e :=
  crop_codec_round_trip_and_failure.2.2.2 "1:2:3" (by decide)

/-- C7: serialization always emits a flat JSON array of the node values in
lexicographic id order, independent of the order nodes were inserted. -/
theorem pipeline_serialize_sorted_flat_array (ns ns' : List Node)
    (hperm : ns.Perm ns') (hnodup : (ns.map Node.id).Nodup) :
    Pipeline.serializeJson (Pipeline.build ns) =
      Pipeline.serializeJson (Pipeline.build ns') ∧
    Pipeline.serializeJson (Pipeline.build ns) =
      Json.arr ((Pipeline.build ns).nodesList.map encodeNode) ∧
    ((Pipeline.build ns).nodes.map Prod.fst).Pairwise (· < ·) ∧
    (Pipeline.build ns).nodesList.Perm ns := by
  have hinj : ∀ x ∈ ns, ∀ y ∈ ns, x.id = y.id → x = y := by
    intro x hx y hy
    exact List.inj_on_of_nodup_map hnodup hx hy
  refine ⟨by rw [build_perm_eq ns ns' hperm hinj], rfl, ?_, ?_⟩
  · have hp := build_nodes_pairwise ns Pipeline.new (by simp [Pipeline.new])
    rw [List.pairwise_map]
    exact hp.imp (fun h => h)
  · have hperm2 := build_values_perm ns Pipeline.new
      (by intro n hn; rfl) hnodup
    rw [Pipeline.nodesList]
    have h2 := hperm2.map Prod.snd
    simp only [show Pipeline.new.nodes = [] from rfl, List.nil_append,
      List.map_map] at h2
    have h3 : List.map (Prod.snd ∘ fun n => (n.id, n)) ns = ns :=
      List.map_id'' (fun x => rfl) ns
    rw [h3] at h2
    exact h2

/-- Witness for C7: two insertion orders of the same two nodes serialize
identically. -/
theorem pipeline_serialize_sorted_flat_array_witness :
    Pipeline.serializeJson (Pipeline.build [nodeBEx, nodeAEx]) =
      Pipeline.serializeJson (Pipeline.build [nodeAEx, nodeBEx]) :=
  (pipeline_serialize_sorted_flat_array [nodeBEx, nodeAEx] [nodeAEx, nodeBEx]
    (List.Perm.swap nodeAEx nodeBEx []) (by decide)).1

/-- C8: the color-format enum decodes the legacy `"r_g_b"` and canonical
`"rgb"` to the same value, and always encodes that value as `"rgb"`,
never the legacy spelling. -/
theorem model_color_format_legacy_alias :
    ModelColorFormat.fromWire "r_g_b" = .ok .rgb ∧
    ModelColorFormat.fromWire "rgb" = .ok .rgb ∧
    ModelColorFormat.toWire .rgb = "rgb" ∧
    (∀ v : ModelColorFormat, ModelColorFormat.toWire v ≠ "r_g_b") := by
  refine ⟨rfl, rfl, rfl, fun v => ?_⟩
  cases v <;> decide

/-- Witness for C8: the canonical encoding of the shared value is not the
legacy spelling. -/
theorem model_color_format_legacy_alias_witness :
    ModelColorFormat.toWire .rgb ≠ "r_g_b" :=
  model_color_format_legacy_alias.2.2.2 .rgb

/-- C9: JSON `null` is accepted as the absent result only by the optional
variant; the non-optional variant reports that the definition is null;
any other outer shape (boolean, number, object) fails both variants. -/
theorem flexible_decoder_null_and_shape :
    deserialize_pipeline_def_optionally Json.null = .ok none ∧
    deserialize_pipeline_def Json.null = .error "Pipeline definition is null" ∧
    (∀ j : Json, jsonShapeOther j = true →
      (∃ e, deserialize_pipeline_def_optionally j = .error e) ∧
      (∃ e, deserialize_pipeline_def j = .error e)) := by
  refine ⟨rfl, rfl, ?_⟩
  intro j hj
  cases j with
  | bool b => exact ⟨⟨_, rfl⟩, ⟨_, rfl⟩⟩
  | num n => exact ⟨⟨_, rfl⟩, ⟨_, rfl⟩⟩
  | obj fs => exact ⟨⟨_, rfl⟩, ⟨_, rfl⟩⟩
  | null => simp [jsonShapeOther] at hj
  | str s2 => simp [jsonShapeOther] at hj
  | arr es => simp [jsonShapeOther] at hj

/-- Witness for C9: a boolean outer shape fails both variants. -/
theorem flexible_decoder_null_and_shape_witness :
    (∃ e, deserialize_pipeline_def_optionally (Json.bool true) = .error e) ∧
    (∃ e, deserialize_pipeline_def (Json.bool true) = .error e) :=
  flexible_decoder_null_and_shape.2.2 (Json.bool true) rfl

/-- C10: the four-character string `"null"` decodes through the string arm
as JSON `null`, so the optional variant yields the absent result and the
non-optional variant fails with the definition-is-null error. -/
theorem flexible_decoder_stringified_null :
    deserialize_pipeline_def_optionally (Json.str "null") = .ok none ∧
    deserialize_pipeline_def (Json.str "null") = .error "Pipeline definition is null" :=
  ⟨rfl, rfl⟩

end Lumeo
